import Mathlib

/-!
Verification of the jsonapi_flex resource codec against its specification.

The Python sources are shallowly embedded: Python dictionaries become
association lists (`List (String × _)`), backing-store model instances become
association lists from mapped column names to primitive values (a fresh
SQLAlchemy-style instance reads as null on unset columns), and fallible
Python code becomes `Except PyErr _`, where `PyErr` covers both the
library's `errors.Error` hierarchy and built-in Python exceptions
(`TypeError`, `KeyError`, `AssertionError`, ...) that escape uncaught.
-/

namespace JsonapiFlex

/-- Primitive (JSON-like) values carried by attributes and foreign keys. -/
inductive Prim where
  | null
  | int (n : Int)
  | str (s : String)
  | bool (b : Bool)
  deriving DecidableEq

/-- Reversed (least-significant first) decimal digits of a natural number;
fuel-based structural recursion (the fuel is the number itself, which always
suffices) so that terms evaluate by `rfl`. -/
def natDecAux : Nat → Nat → List Char
  | _, 0 => []
  | 0, _ + 1 => []
  | fuel + 1, n + 1 =>
    Char.ofNat (48 + (n + 1) % 10) :: natDecAux fuel ((n + 1) / 10)

def natDecRev (n : Nat) : List Char := natDecAux n n

/-- Decimal rendering of a natural number, as Python `str` produces it. -/
def pyNatRepr (n : Nat) : String :=
  if n = 0 then "0" else String.mk (natDecRev n).reverse

/-- Decimal rendering of an integer, as Python `str` produces it. -/
def pyIntRepr (i : Int) : String :=
  if i < 0 then String.mk ('-' :: (natDecRev i.natAbs).reverse) else pyNatRepr i.toNat

/-- Python `str(x)` on the primitives we model (`str(None) = "None"`,
`str(True) = "True"`). -/
def pyStrPrim : Prim → String
  | .null => "None"
  | .int n => pyIntRepr n
  | .str s => s
  | .bool b => if b then "True" else "False"

/-- Python `str(x)` where `x` is an optional string (`str(None) = "None"`).
This models the `str(source_pointer)` call in `errors.Error.__init__`. -/
def pyStrOfOpt : Option String → String
  | none => "None"
  | some s => s

def isDigitChar (c : Char) : Bool := 48 ≤ c.toNat && c.toNat ≤ 57

def digitVal (c : Char) : Nat := c.toNat - 48

/-- Parse a nonempty all-digit character list as a natural number. -/
def parseNatDigits? (cs : List Char) : Option Nat :=
  if cs.isEmpty then none
  else if cs.all isDigitChar then
    some (cs.foldl (fun a c => a * 10 + digitVal c) 0)
  else none

/-- Model of Python `int(s)` on strings: optional sign followed by decimal
digits (surrounding whitespace and digit-group underscores are not modelled).
`none` stands for `ValueError`. -/
def pyParseIntL? : List Char → Option Int
  | [] => none
  | c :: rest =>
    if c = '-' then (parseNatDigits? rest).map (fun n => -(n : Int))
    else if c = '+' then (parseNatDigits? rest).map (fun n => (n : Int))
    else (parseNatDigits? (c :: rest)).map (fun n => (n : Int))

def pyParseInt? (s : String) : Option Int := pyParseIntL? s.toList

/-! ### errors.py -/

/-- Model of `errors.Error`: the library's exception base class.  Field for field the
attributes set by `Error.__init__`; note that `__init__` stores
`str(source_pointer)`, so a missing pointer is stored as the string "None". -/
structure ApiError where
  http_status : Nat
  id : Option String
  about : String
  code : Option String
  title : String
  detail : String
  source_pointer : String
  source_parameter : Option String
  deriving DecidableEq

/-- An uncaught error: either a library `errors.Error` or a Python builtin
exception escaping from the code. -/
inductive PyErr where
  | api (e : ApiError)
  | typeError
  | keyError
  | valueError
  | assertionError
  | attributeError
  deriving DecidableEq

/-- Model of `errors.Error.__init__` with a class-specific status and title (the title
defaults to the class name).  Only `detail`, `source_parameter` and
`source_pointer` are ever passed by the code under verification. -/
def mkError (status : Nat) (title : String) (detail : String)
    (source_parameter : Option String) (source_pointer : Option String) : ApiError :=
  { http_status := status, id := none, about := "", code := none,
    title := title, detail := detail,
    source_pointer := pyStrOfOpt source_pointer,
    source_parameter := source_parameter }

def badRequestE (detail : String) (source_parameter : Option String)
    (source_pointer : Option String) : ApiError :=
  mkError 400 "BadRequest" detail source_parameter source_pointer

def unprocessableE (detail : String) : ApiError :=
  mkError 422 "UnprocessableEntity" detail none none

def forbiddenE (detail : String) : ApiError :=
  mkError 403 "Forbidden" detail none none

/-- The serialized error object (`Error.json`): optional members are `Option`;
`source` is the optional pair (pointer?, parameter?). -/
structure ErrorJson where
  id : Option String
  status : Nat
  title : String
  links_about : Option String
  code : Option String
  detail : Option String
  source : Option (Option String × Option String)
  deriving DecidableEq

/-- Python truthiness of an optional string. -/
def optTruthy : Option String → Bool
  | none => false
  | some s => s ≠ ""

/-- Model of `errors.Error.json`: includes each optional member only when the
corresponding attribute is truthy. -/
def ApiError.json (e : ApiError) : ErrorJson :=
  { id := e.id
    status := e.http_status
    title := e.title
    links_about := if e.about ≠ "" then some e.about else none
    code := if optTruthy e.code then e.code else none
    detail := if e.detail ≠ "" then some e.detail else none
    source :=
      if e.source_pointer ≠ "" || optTruthy e.source_parameter then
        some ((if e.source_pointer ≠ "" then some e.source_pointer else none),
              (if optTruthy e.source_parameter then e.source_parameter else none))
      else none }

/-! ### utilities.py: split_str_on_comma -/

/-- Flush the pending token: `if sub_str: result.append(sub_str)`. -/
def flushTok (sub : String) (res : List String) : List String :=
  if sub ≠ "" then res ++ [sub] else res

/-- Body of the `for i in range(len(str))` loop of `split_str_on_comma`,
one list element per iteration.  The Python statement `i = i + 1` inside the
backslash branch does not skip the next iteration (the `for` loop restores
`i`); it only selects which character is appended to `sub_str` — `str[i+1]`
when one exists, or the backslash itself at the end of the string.  The
following iteration then sees `is_escaped` set and contributes nothing. -/
def splitLoop : Nat → List Char → Bool → String → List String → List String
  | _, [], _, sub, res => flushTok sub res
  | 0, _ :: _, _, sub, res => flushTok sub res
  | fuel + 1, c :: rest, esc, sub, res =>
    if c = ',' ∧ esc = false then
      splitLoop fuel rest esc "" (flushTok sub res)
    else if esc then splitLoop fuel rest false sub res
    else if c = '\\' then
      match rest with
      | next :: tail => splitLoop fuel (next :: tail) true (sub.push next) res
      | [] => splitLoop fuel [] true (sub.push '\\') res
    else splitLoop fuel rest esc (sub.push c) res

/-- Model of `utilities.split_str_on_comma`.  The fuel argument (the input
length, always sufficient) makes the loop structurally recursive; each
fuel step is exactly one iteration of the Python `for i in range(...)`
loop. -/
def split_str_on_comma (s : String) : List String :=
  splitLoop s.toList.length s.toList false "" []

/-- Direct recursive statement of the splitting discipline: split on commas
that are not escaped, drop one escaping backslash per escaped character, drop
empty tokens; a backslash that is the final character of the input is emitted
literally.  Used to state the amended round-trip claim about the splitter. -/
def splitSpecGo : List Char → String → List String → List String
  | [], sub, res => flushTok sub res
  | c :: rest, sub, res =>
    if c = ',' then splitSpecGo rest "" (flushTok sub res)
    else if c = '\\' then
      match rest with
      | [] => flushTok (sub.push '\\') res
      | next :: rest2 => splitSpecGo rest2 (sub.push next) res
    else splitSpecGo rest (sub.push c) res

def splitSpec (s : String) : List String := splitSpecGo s.toList "" []

/-- The splitting discipline exactly as the claim states it (never emit an
escaping backslash, even when it is the final character of the input). -/
def splitClaimedGo : List Char → String → List String → List String
  | [], sub, res => flushTok sub res
  | c :: rest, sub, res =>
    if c = ',' then splitClaimedGo rest "" (flushTok sub res)
    else if c = '\\' then
      match rest with
      | [] => flushTok sub res
      | next :: rest2 => splitClaimedGo rest2 (sub.push next) res
    else splitClaimedGo rest (sub.push c) res

def splitClaimed (s : String) : List String := splitClaimedGo s.toList "" []

/-! ### utilities.py: check_number, pagination.py: NumberSize -/

/-- The value `check_number` returns: the input unchanged when it is falsy
(`None` or the empty string), otherwise the parsed integer. -/
inductive NumVal where
  | pynone
  | emptyStr
  | num (n : Int)
  deriving DecidableEq

/-- Model of `utilities.check_number` (detail strings are reproduced without
the surrounding quote characters). -/
def check_number (number : Option String) (name : String) : Except PyErr NumVal :=
  match number with
  | none => .ok .pynone
  | some s =>
    if s = "" then .ok .emptyStr
    else
      match pyParseInt? s with
      | none =>
        .error (.api (badRequestE ("The " ++ name ++ " must be an integer.")
          (some name) none))
      | some n =>
        if n < 1 then
          .error (.api (badRequestE ("The " ++ name ++ " must be >= 1.")
            (some name) none))
        else .ok (.num n)

/-- The request surface `NumberSize.from_request` reads: `query_args` and
`link_prefix` (the latter named `linkPref` here). -/
structure PyRequest where
  query_args : List (String × String)
  linkPref : String

/-- Python `dict.get` on query parameters. -/
def getParam (args : List (String × String)) (k : String) : Option String :=
  (args.find? (fun p => p.1 == k)).map (fun p => p.2)

structure NumberSizePaginator where
  linkPref : String
  urlComponent : String
  args : List (String × String)
  number : Int
  size : Int
  total_resources : Int
  deriving DecidableEq

def DEFAULT_LIMIT : Int := 25

/-- Model of `NumberSize.__init__`: the `assert number > 0` / `assert size > 0` /
`assert total_resources >= 0` statements.  Comparing `None` or a string with
an integer raises `TypeError` in Python 3, so a falsy value surviving
`check_number` surfaces here as a `TypeError`. -/
def NumberSize.mkPag (linkPref urlComponent : String) (args : List (String × String))
    (number size : NumVal) (total : Int) : Except PyErr NumberSizePaginator :=
  match number with
  | .num n =>
    if n > 0 then
      match size with
      | .num sz =>
        if sz > 0 then
          if total ≥ 0 then
            .ok { linkPref := linkPref, urlComponent := urlComponent, args := args,
                  number := n, size := sz, total_resources := total }
          else .error .assertionError
        else .error .assertionError
      | _ => .error .typeError
    else .error .assertionError
  | _ => .error .typeError

/-- Model of `NumberSize.from_request`. -/
def NumberSize.from_request (req : PyRequest) (urlComponent : String)
    (total : Int) (default_size : Int) : Except PyErr NumberSizePaginator :=
  match check_number (getParam req.query_args "page[number]") "page[number]" with
  | .error e => .error e
  | .ok number =>
    match check_number (getParam req.query_args "page[size]") "page[size]" with
    | .error e => .error e
    | .ok size =>
      -- `size = default_size if size == 0 else size`; `check_number` never
      -- returns 0, and Python `None == 0` and `"" == 0` are both False
      let size := if size = NumVal.num 0 then NumVal.num default_size else size
      NumberSize.mkPag req.linkPref urlComponent req.query_args number size total

/-! ### resource.py: fields, schema, model instances, documents -/

/-- Model of an `Attribute` field descriptor.  `writable_during` is a subset of
`{CREATE, UPDATE}`, modelled as two booleans. -/
structure AttrField where
  mapped_attribute_name : String
  nullable : Bool
  has_default : Bool
  writableCreate : Bool
  writableUpdate : Bool
  deriving DecidableEq

/-- Model of a `ToOneRelationship` field descriptor. -/
structure RelField where
  mapped_fk_name : String
  relatedType : String
  nullable : Bool
  has_default : Bool
  writableCreate : Bool
  writableUpdate : Bool
  deriving DecidableEq

/-- A registered `Resource` subclass: its resource type, URL component, the
`Id` field's mapped primary-key name, and the `_attrs_by_japi_name` /
`_rels_by_japi_name` maps keyed by wire (japi) name.  The metaclass default
`japi_name = python_name` is assumed, so wire names double as Python
attribute names (as `get_sparse_fields`'s `getattr` requires). -/
structure Schema where
  japi_resource_type : String
  urlComponent : String
  idKey : String
  attrs : List (String × AttrField)
  rels : List (String × RelField)
  deriving DecidableEq

def lookupAttr (S : Schema) (k : String) : Option AttrField :=
  (S.attrs.find? (fun p => p.1 == k)).map (fun p => p.2)

def lookupRel (S : Schema) (k : String) : Option RelField :=
  (S.rels.find? (fun p => p.1 == k)).map (fun p => p.2)

/-- A backing model instance: mapped column name to value.  A freshly
constructed (pre-flush) SQLAlchemy instance reads `None` on any column that
was never assigned, so `mget` defaults to `null`; `mset` shadows (the newest
binding is found first). -/
abbrev Model := List (String × Prim)

def mget (m : Model) (k : String) : Prim :=
  (((m.find? (fun p => p.1 == k))).map (fun p => p.2)).getD .null

def mset (m : Model) (k : String) (v : Prim) : Model := (k, v) :: m

/-- A resource identifier object `{type, id}` (the optional `meta` member is
ignored by the codec). -/
structure RIdent where
  rtype : String
  rid : String
  deriving DecidableEq

/-- The value stored under one relationship name in a document:
either JSON `null` (`vnull`) or a relationship object.  In the object form,
`links` holds the (self, related) pair when present, and `data` is `none`
when the object has no `data` member, `some none` for `{"data": null}`, and
`some (some ident)` for an identifier. -/
inductive RelMember where
  | vnull
  | robj (links : Option (String × String)) (data : Option (Option RIdent))
  deriving DecidableEq

/-- A resource document in primitive form, as consumed and produced by the
codec (`attributes`/`relationships` are `none` when the member is absent;
the codec treats an absent member like an empty object via `... or {}`). -/
structure Doc where
  id : Option String
  type : String
  selfLink : Option String
  attributes : Option (List (String × Prim))
  relationships : Option (List (String × RelMember))
  deriving DecidableEq

/-! ### utilities.py: link helpers -/

def link_for_resource (linkPref urlComp id : String) : String :=
  linkPref ++ "/" ++ urlComp ++ "/" ++ id

def link_for_related (linkPref urlComp id relName : String) : String :=
  linkPref ++ "/" ++ urlComp ++ "/" ++ id ++ "/" ++ relName

def link_for_relationship (linkPref urlComp id relName : String) : String :=
  linkPref ++ "/" ++ urlComp ++ "/" ++ id ++ "/relationships/" ++ relName

/-! ### resource.py: field-level (de)serialization -/

/-- Model of `ToOneRelationship.serialize`: emit the foreign key as a
resource identifier (or `data: null` when the key is `None`), plus the
relationship links. -/
def ToOne.serializeField (S : Schema) (relName : String) (f : RelField)
    (m : Model) (idStr linkPref : String) : RelMember :=
  .robj
    (some (link_for_relationship linkPref S.urlComponent idStr relName,
           link_for_related linkPref S.urlComponent idStr relName))
    (some (if mget m f.mapped_fk_name = .null then none
           else some ⟨f.relatedType, pyStrPrim (mget m f.mapped_fk_name)⟩))

/-- Model of `ToOneRelationship.deserialize`: `value["data"]` (a `TypeError`
when `value` is `None`, a `KeyError` when the member is missing); `None`
linkage deserializes to `None`; otherwise the linkage type must match and
`int(data["id"])` is taken (a `ValueError` when unparseable).  The detail
string is reproduced without quote characters. -/
def ToOne.deserializeField (f : RelField) (v : RelMember) : Except PyErr Prim :=
  match v with
  | .vnull => .error .typeError
  | .robj _ dataOpt =>
    match dataOpt with
    | none => .error .keyError
    | some none => .ok .null
    | some (some ident) =>
      if ident.rtype ≠ f.relatedType then
        .error (.api (badRequestE "Relationship type does not match definition" none none))
      else
        match pyParseInt? ident.rid with
        | none => .error .valueError
        | some n => .ok (.int n)

/-! ### resource.py: Resource.deserialize -/

/-- One iteration of the attribute-intersection loop of `Resource.deserialize`:
null check, writability check, then `deserialize_into_obj` (a no-op
deserialize followed by the default `setattr`-based setter). -/
def procAttr (S : Schema) (m : Model) (k : String) (v : Prim) : Except PyErr Model :=
  match lookupAttr S k with
  | none => .error .keyError
  | some f =>
    if v = .null ∧ ¬ f.nullable then
      .error (.api (unprocessableE "Non-nullable attribute set to None"))
    else if ¬ f.writableCreate then
      .error (.api (forbiddenE "Cannot write to field"))
    else .ok (mset m f.mapped_attribute_name v)

def procAttrList (S : Schema) : Model → List (String × Prim) → Except PyErr Model
  | m, [] => .ok m
  | m, (k, v) :: rest =>
    match procAttr S m k v with
    | .error e => .error e
    | .ok m' => procAttrList S m' rest

/-- One iteration of the relationship-intersection loop of
`Resource.deserialize`: writability check; then, for a `null` member, the
nullability check (after which control still falls through to
`deserialize_into_obj`, which subscripts `None` — a `TypeError`); for an
object member, `input_value["data"]["type"]` is compared against the related
type (subscripting `None` when the linkage is `null` — a `TypeError`);
finally `deserialize_into_obj` writes the foreign key. -/
def procRel (S : Schema) (m : Model) (k : String) (v : RelMember) : Except PyErr Model :=
  match lookupRel S k with
  | none => .error .keyError
  | some f =>
    if ¬ f.writableCreate then .error (.api (forbiddenE "Cannot write to field"))
    else
      match v with
      | .vnull =>
        if ¬ f.nullable then
          .error (.api (unprocessableE "Non-nullable relationship set to None"))
        else
          match ToOne.deserializeField f .vnull with
          | .error e => .error e
          | .ok val => .ok (mset m f.mapped_fk_name val)
      | .robj links dataOpt =>
        match dataOpt with
        | none => .error .keyError
        | some none => .error .typeError
        | some (some ident) =>
          if ident.rtype ≠ f.relatedType then
            .error (.api (badRequestE "Type field does not match schema" none none))
          else
            match ToOne.deserializeField f (.robj links (some (some ident))) with
            | .error e => .error e
            | .ok val => .ok (mset m f.mapped_fk_name val)

def procRelList (S : Schema) : Model → List (String × RelMember) → Except PyErr Model
  | m, [] => .ok m
  | m, (k, v) :: rest =>
    match procRel S m k v with
    | .error e => .error e
    | .ok m' => procRelList S m' rest

/-- Model of `Resource.deserialize` (create context).  Detail strings are
reproduced without quote characters.  The model instance starts out empty
(`cls(cls.model_class())`). -/
def Resource.deserialize (S : Schema) (D : Doc) : Except PyErr Model :=
  if D.type ≠ S.japi_resource_type then
    .error (.api (badRequestE "Type field does not match handler resource" none none))
  else if ((D.attributes.getD []).filter (fun p => (lookupAttr S p.1).isNone)) ≠ [] then
    .error (.api (unprocessableE "Extra attributes"))
  else if (S.attrs.filter
        (fun p => !((D.attributes.getD []).any (fun q => q.1 == p.1)))).any
      (fun p => !(p.2.has_default || p.2.nullable)) then
    .error (.api (unprocessableE "Missing attributes"))
  else
    match procAttrList S [] (D.attributes.getD []) with
    | .error e => .error e
    | .ok m1 =>
      if ((D.relationships.getD []).filter (fun p => (lookupRel S p.1).isNone)) ≠ [] then
        .error (.api (unprocessableE "Extra relationships"))
      else if (S.rels.filter
            (fun p => !((D.relationships.getD []).any (fun q => q.1 == p.1)))).any
          (fun p => !(p.2.nullable || p.2.has_default)) then
        .error (.api (unprocessableE "Missing relationship"))
      else procRelList S m1 (D.relationships.getD [])

/-! ### resource.py: Resource.serialize -/

/-- Model of `Resource.serialize` with `fields=None` (no sparse fieldset):
every schema attribute and relationship is emitted; the `attributes` /
`relationships` members are omitted when their dicts are empty. -/
def Resource.serialize (S : Schema) (m : Model) (linkPref : String) : Doc :=
  let idStr := pyStrPrim (mget m S.idKey)
  let attrsList := S.attrs.map (fun p => (p.1, mget m p.2.mapped_attribute_name))
  let relsList := S.rels.map
    (fun p => (p.1, ToOne.serializeField S p.1 p.2 m idStr linkPref))
  { id := some idStr
    type := S.japi_resource_type
    selfLink := some (link_for_resource linkPref S.urlComponent idStr)
    attributes := if attrsList.isEmpty then none else some attrsList
    relationships := if relsList.isEmpty then none else some relsList }

/-! ### resource.py: create_patch_dict / apply_patch_dict -/

structure PatchDict where
  attributes : List (String × Prim)
  relationships : List (String × Prim)
  deriving DecidableEq

/-- One iteration of the attribute loop of `create_patch_dict`: UPDATE
writability, then the no-op `Attribute.deserialize`. -/
def patchAttr (S : Schema) (k : String) (v : Prim) : Except PyErr Prim :=
  match lookupAttr S k with
  | none => .error .keyError
  | some f =>
    if ¬ f.writableUpdate then .error (.api (forbiddenE "Cannot update attribute"))
    else .ok v

def patchAttrList (S : Schema) : List (String × Prim) → Except PyErr (List (String × Prim))
  | [] => .ok []
  | (k, v) :: rest =>
    match patchAttr S k v with
    | .error e => .error e
    | .ok v' =>
      match patchAttrList S rest with
      | .error e => .error e
      | .ok rest' => .ok ((k, v') :: rest')

/-- One iteration of the relationship loop of `create_patch_dict`: UPDATE
writability, nullability / linkage-type prechecks, then
`ToOneRelationship.deserialize` (sharing the `None`-subscript behavior of the
create path). -/
def patchRel (S : Schema) (k : String) (v : RelMember) : Except PyErr Prim :=
  match lookupRel S k with
  | none => .error .keyError
  | some f =>
    if ¬ f.writableUpdate then .error (.api (forbiddenE "Cannot update relationship"))
    else
      match v with
      | .vnull =>
        if ¬ f.nullable then
          .error (.api (unprocessableE "Non-nullable relationship set to None"))
        else ToOne.deserializeField f .vnull
      | .robj links dataOpt =>
        match dataOpt with
        | none => .error .keyError
        | some none => .error .typeError
        | some (some ident) =>
          if ident.rtype ≠ f.relatedType then
            .error (.api (badRequestE "Type field does not match schema" none none))
          else ToOne.deserializeField f (.robj links (some (some ident)))

def patchRelList (S : Schema) : List (String × RelMember) → Except PyErr (List (String × Prim))
  | [] => .ok []
  | (k, v) :: rest =>
    match patchRel S k v with
    | .error e => .error e
    | .ok v' =>
      match patchRelList S rest with
      | .error e => .error e
      | .ok rest' => .ok ((k, v') :: rest')

/-- Model of `Resource.create_patch_dict`. -/
def Resource.create_patch_dict (S : Schema) (D : Doc) : Except PyErr PatchDict :=
  if D.type ≠ S.japi_resource_type then
    .error (.api (badRequestE "Type field does not match handler resource" none none))
  else if ((D.attributes.getD []).filter (fun p => (lookupAttr S p.1).isNone)) ≠ [] then
    .error (.api (unprocessableE "Extra attributes"))
  else
    match patchAttrList S (D.attributes.getD []) with
    | .error e => .error e
    | .ok retAttrs =>
      if ((D.relationships.getD []).filter (fun p => (lookupRel S p.1).isNone)) ≠ [] then
        .error (.api (unprocessableE "Extra relationships"))
      else
        match patchRelList S (D.relationships.getD []) with
        | .error e => .error e
        | .ok retRels => .ok { attributes := retAttrs, relationships := retRels }

/-- Python `isinstance(value, ToOneRelationship)` where `value` is a
patch-dict value: such values are deserialized primitives (foreign-key
integers or `None`), never field-descriptor objects, so this is always
`False`. -/
def pyIsinstanceToOneRelationship (_ : Prim) : Bool := false

/-- One iteration of the attribute loop of `apply_patch_dict`:
`field._fset(self.model, value)` — the setter is the poisoned
`AttributeError` raiser exactly when the field was declared with an empty
`writable_during` set. -/
def applyAttrEntry (S : Schema) (m : Model) (k : String) (v : Prim) : Except PyErr Model :=
  match lookupAttr S k with
  | none => .error .keyError
  | some f =>
    if ¬ (f.writableCreate || f.writableUpdate) then .error .attributeError
    else .ok (mset m f.mapped_attribute_name v)

def applyAttrList (S : Schema) : Model → List (String × Prim) → Except PyErr Model
  | m, [] => .ok m
  | m, (k, v) :: rest =>
    match applyAttrEntry S m k v with
    | .error e => .error e
    | .ok m' => applyAttrList S m' rest

/-- One iteration of the relationship loop of `apply_patch_dict`.  The code
runs `assert isinstance(value, ToOneRelationship)` on the *value* (the
deserialized foreign key), not on the field descriptor. -/
def applyRelList (S : Schema) : Model → List (String × Prim) → Except PyErr Model
  | m, [] => .ok m
  | m, (k, v) :: rest =>
    if ¬ pyIsinstanceToOneRelationship v then .error .assertionError
    else
      match lookupRel S k with
      | none => .error .keyError
      | some f =>
        if ¬ (f.writableCreate || f.writableUpdate) then .error .attributeError
        else applyRelList S (mset m f.mapped_fk_name v) rest

/-- Model of `Resource.apply_patch_dict`. -/
def Resource.apply_patch_dict (S : Schema) (m : Model) (pd : PatchDict) :
    Except PyErr Model :=
  match applyAttrList S m pd.attributes with
  | .error e => .error e
  | .ok m1 => applyRelList S m1 pd.relationships

/-! ### utilities.py: get_sparse_fields -/

/-- Characters matched by the character class `[A-z0-9_]` of the
`fields[...]` regular expression (the `A-z` range spans codes 65–122 and
already contains `_`). -/
def fieldsClassChar (c : Char) : Bool :=
  (65 ≤ c.toNat && c.toNat ≤ 122) || (48 ≤ c.toNat && c.toNat ≤ 57)

/-- Full match of the key against `fields\[([A-z0-9_]+)\]`. -/
def isFieldsKey (k : String) : Bool :=
  let cs := k.toList
  decide (cs.take 7 = ['f', 'i', 'e', 'l', 'd', 's', '[']) &&
  decide (9 ≤ cs.length) &&
  decide (cs.getLast? = some ']') &&
  (cs.drop 7).dropLast.all fieldsClassChar

/-- Python `str.strip()` with no argument: drop leading and trailing
whitespace (ASCII whitespace; further Unicode space classes are not
modelled). -/
def isPySpace (c : Char) : Bool :=
  c = ' ' ∨ c = '\t' ∨ c = '\n' ∨ c = '\r' ∨ c = '\x0b' ∨ c = '\x0c'

def pyStrip (s : String) : String :=
  String.mk (((s.toList.dropWhile isPySpace).reverse.dropWhile isPySpace).reverse)

/-- The entries contributed by one `fields[...]` value: comma-split (with
escapes), stripped, empties dropped. -/
def sparseEntries (v : String) : List String :=
  ((split_str_on_comma v).map pyStrip).filter (fun w => w ≠ "")

/-- Substitution applied on the for-query side: a relationship wire name is
replaced by its mapped foreign-key name. -/
def sparseSubst (S : Schema) (w : String) : String :=
  match lookupRel S w with
  | some f => f.mapped_fk_name
  | none => w

/-- One query parameter processed by `get_sparse_fields`. -/
def sparseStep (S : Schema) (st : Option (List String) × Option (List String))
    (kv : String × String) : Option (List String) × Option (List String) :=
  if isFieldsKey kv.1 then
    let cols := sparseEntries kv.2
    (some (st.1.getD [] ++ cols),
     some (st.2.getD [] ++ cols.map (sparseSubst S)))
  else st

/-- Model of `utilities.get_sparse_fields`: returns
(sparse_fields_to_return, sparse_fields_for_query), both `none` (the unset
sentinel) when no `fields[...]` parameter occurs. -/
def get_sparse_fields (args : List (String × String)) (S : Schema) :
    Option (List String) × Option (List String) :=
  args.foldl (sparseStep S) (none, none)

/-! ### japi_format_validators.py -/

/-- A JSON value, as produced by `json.loads`. -/
inductive JVal where
  | jnull
  | jbool (b : Bool)
  | jint (n : Int)
  | jstr (s : String)
  | jarr (xs : List JVal)
  | jobj (fields : List (String × JVal))

def jget? (fields : List (String × JVal)) (k : String) : Option JVal :=
  (fields.find? (fun p => p.1 == k)).map (fun p => p.2)

/-- Sequential `for`-loop validation: the first failure raises. -/
def checkEntries (f : String → JVal → Except PyErr Unit) :
    List (String × JVal) → Except PyErr Unit
  | [] => .ok ()
  | (k, v) :: rest =>
    match f k v with
    | .error e => .error e
    | .ok _ => checkEntries f rest

/-- Model of `assert_meta_object` (detail strings without quote characters;
likewise below). -/
def assert_meta_object (d : JVal) (sp : String) : Except PyErr Unit :=
  match d with
  | .jobj _ => .ok ()
  | _ => .error (.api (badRequestE "A meta object must be an object." none (some sp)))

/-- Model of `assert_link`. -/
def assert_link (d : JVal) (sp : String) : Except PyErr Unit :=
  match d with
  | .jstr _ => .ok ()
  | .jobj fields =>
    if fields.isEmpty then
      .error (.api (badRequestE "A link object cannot be an empty object." none (some sp)))
    else if ¬ fields.all (fun p => p.1 = "href" ∨ p.1 = "meta") then
      .error (.api (badRequestE "A link object can only contain these members: href, meta."
        none (some sp)))
    else
      match
        ((match jget? fields "href" with
         | some (.jstr _) => Except.ok ()
         | some _ =>
           .error (.api (badRequestE "The value of href must be a string."
             none (some (sp ++ "href/"))))
         | none => .ok ()) : Except PyErr Unit) with
      | .error e => .error e
      | .ok _ =>
        match jget? fields "meta" with
        | some v => assert_meta_object v (sp ++ "meta/")
        | none => .ok ()
  | _ => .error (.api (badRequestE "A link object must be a string or an object."
      none (some sp)))

/-- Model of `assert_links_object`. -/
def assert_links_object (d : JVal) (sp : String) : Except PyErr Unit :=
  match d with
  | .jobj fields => checkEntries (fun k v => assert_link v (sp ++ k ++ "/")) fields
  | _ => .error (.api (badRequestE "A links object must be an object." none (some sp)))

/-- Model of `assert_resource_identifier_object`. -/
def assert_resource_identifier_object (d : JVal) (sp : String) : Except PyErr Unit :=
  match d with
  | .jobj fields =>
    if ¬ fields.all (fun p => p.1 = "id" ∨ p.1 = "type" ∨ p.1 = "meta") then
      .error (.api (badRequestE
        "A resource identifier object can only contain these members: id, type, meta."
        none (some sp)))
    else
      match
        (match jget? fields "meta" with
         | some v => assert_meta_object v (sp ++ "meta/")
         | none => Except.ok ()) with
      | .error e => .error e
      | .ok _ =>
        match jget? fields "type" with
        | none => .error (.api (badRequestE "The type member is not present." none (some sp)))
        | some (.jstr _) =>
          match jget? fields "id" with
          | none => .error (.api (badRequestE "The id member is not present." none (some sp)))
          | some (.jstr _) => .ok ()
          | some _ =>
            .error (.api (badRequestE "The value of id must be a string."
              none (some (sp ++ "id/"))))
        | some _ =>
          .error (.api (badRequestE "The value of type must be a string."
            none (some (sp ++ "type/"))))
  | _ => .error (.api (badRequestE "A resource identifier object must be an object."
      none (some sp)))

/-- Model of `assert_to_one_resource_linkage`. -/
def assert_to_one_resource_linkage (d : JVal) (sp : String) : Except PyErr Unit :=
  match d with
  | .jnull => .ok ()
  | .jobj fields => assert_resource_identifier_object (.jobj fields) sp
  | _ => .error (.api (badRequestE
      "A resource linkage for a to-one relationship must be None or a resource identifier object."
      none (some sp)))

def checkIdentList (sp : String) : Nat → List JVal → Except PyErr Unit
  | _, [] => .ok ()
  | i, item :: rest =>
    match assert_resource_identifier_object item (sp ++ pyNatRepr i ++ "/") with
    | .error e => .error e
    | .ok _ => checkIdentList sp (i + 1) rest

/-- Model of `assert_to_many_resource_linkage`. -/
def assert_to_many_resource_linkage (d : JVal) (sp : String) : Except PyErr Unit :=
  match d with
  | .jarr xs => checkIdentList sp 0 xs
  | _ => .error (.api (badRequestE
      "A resource linkage for a to-many relationship must be an empty list or an array of resource identifier objects."
      none (some sp)))

/-- Model of `assert_relationship_object`.  The `data` member check mirrors
the code exactly: when present, a `to_one` failure is recorded, then a
`to_many` failure overwrites it, and the surviving exception (if any) is
raised; when absent, a Missing-data-member error is raised unconditionally —
also when neither discipline flag is set. -/
def assert_relationship_object (d : JVal) (sp : String) (to_many to_one : Bool) :
    Except PyErr Unit :=
  match d with
  | .jobj fields =>
    if fields.isEmpty then
      .error (.api (badRequestE
        "A relationship object must contain at least one of these members: data, links, meta."
        none (some sp)))
    else if ¬ fields.all (fun p => p.1 = "links" ∨ p.1 = "data" ∨ p.1 = "meta") then
      .error (.api (badRequestE
        "A relationship object may only contain the following members: links, data and meta."
        none (some sp)))
    else
      match
        (match jget? fields "links" with
         | some v => assert_links_object v (sp ++ "links/")
         | none => Except.ok ()) with
      | .error e => .error e
      | .ok _ =>
        match
          (match jget? fields "meta" with
           | some v => assert_meta_object v (sp ++ "meta/")
           | none => Except.ok ()) with
        | .error e => .error e
        | .ok _ =>
          match jget? fields "data" with
          | some v =>
            let e1 : Option PyErr :=
              if to_one then
                match assert_to_one_resource_linkage v (sp ++ "data/") with
                | .error e => some e
                | .ok _ => none
              else none
            let e2 : Option PyErr :=
              if to_many then
                match assert_to_many_resource_linkage v (sp ++ "data/") with
                | .error e => some e
                | .ok _ => none
              else none
            match (match e2 with | some e => some e | none => e1) with
            | some e => .error e
            | none => .ok ()
          | none => .error (.api (badRequestE "Missing data member" none (some sp)))
  | _ => .error (.api (badRequestE "A relationship object must be an object" none (some sp)))

/-! ### resource.py: ResourceMeta field-map composition (heap model)

To state the value-copy independence of inherited field descriptors, the
descriptors live in an explicit heap: `Store` maps addresses to descriptor
payloads, a class's field map sends wire names to addresses, and
`copy.deepcopy` of a map allocates a fresh address per entry holding a copy
of the payload.  Mutating a descriptor is writing its address in the store. -/

/-- The payload of one field descriptor (what `deepcopy` copies by value). -/
structure FieldRecord where
  japi_name : String
  nullable : Bool
  has_default : Bool
  deriving DecidableEq

def Store := Nat → FieldRecord

def writeStore (σ : Store) (a : Nat) (v : FieldRecord) : Store :=
  fun x => if x = a then v else σ x

/-- Model of `copy.deepcopy` applied to a field map: each entry's payload is
copied into a freshly allocated address (`n`, `n+1`, ...). -/
def deepcopyEntries (σ : Store) (n : Nat) :
    List (String × Nat) → Store × Nat × List (String × Nat)
  | [] => (σ, n, [])
  | (k, a) :: rest =>
    let r := deepcopyEntries (writeStore σ n (σ a)) (n + 1) rest
    (r.1, r.2.1, (k, n) :: r.2.2)

/-- Allocation of the locally declared field descriptors (the objects created
in the class body). -/
def allocEntries (σ : Store) (n : Nat) :
    List (String × FieldRecord) → Store × Nat × List (String × Nat)
  | [] => (σ, n, [])
  | (k, v) :: rest =>
    let r := allocEntries (writeStore σ n v) (n + 1) rest
    (r.1, r.2.1, (k, n) :: r.2.2)

/-- Result of `dict.update` run over the bases in `reversed(bases)` order:
the closest base's entry wins, i.e. is found first. -/
def mergeParents (bases : List (List (String × Nat))) : List (String × Nat) :=
  bases.foldr (fun b acc => b ++ acc) []

/-- Overlay of the locally declared fields over the inherited copies: a local
definition under the same wire name shadows the inherited one. -/
def overlayMap (base news : List (String × Nat)) : List (String × Nat) :=
  news ++ base

/-- Model of the field-map composition in `ResourceMeta.__init__`: merge the
parents' attribute and relationship maps (closest base first), `deepcopy`
both merged maps, then overlay the locally declared fields. -/
def ResourceMeta.register (σ : Store) (n : Nat)
    (parentAttrs parentRels : List (List (String × Nat)))
    (localAttrs localRels : List (String × FieldRecord)) :
    Store × Nat × List (String × Nat) × List (String × Nat) :=
  let r1 := deepcopyEntries σ n (mergeParents parentAttrs)
  let r2 := deepcopyEntries r1.1 r1.2.1 (mergeParents parentRels)
  let r3 := allocEntries r2.1 r2.2.1 localAttrs
  let r4 := allocEntries r3.1 r3.2.1 localRels
  (r4.1, r4.2.1, overlayMap r1.2.2 r3.2.2, overlayMap r2.2.2 r4.2.2)

/-! ### Concrete fixtures used by the theorems below -/

/-- An article schema with one attribute and one writable to-one
relationship (`author`, foreign key `author_id`, pointing at `person`). -/
def articleSchema : Schema :=
  { japi_resource_type := "article", urlComponent := "articles", idKey := "id",
    attrs := [("title",
      { mapped_attribute_name := "title", nullable := false, has_default := false,
        writableCreate := true, writableUpdate := true })],
    rels := [("author",
      { mapped_fk_name := "author_id", relatedType := "person", nullable := false,
        has_default := false, writableCreate := true, writableUpdate := true })] }

/-- A create/patch document for `articleSchema` supplying both fields. -/
def articleDoc : Doc :=
  { id := none, type := "article", selfLink := none,
    attributes := some [("title", .str "t")],
    relationships := some [("author", .robj none (some (some ⟨"person", "9"⟩)))] }

/-- A schema with a single nullable, writable to-one relationship. -/
def nullableRelSchema : Schema :=
  { japi_resource_type := "post", urlComponent := "posts", idKey := "id",
    attrs := [],
    rels := [("author",
      { mapped_fk_name := "author_id", relatedType := "person", nullable := true,
        has_default := false, writableCreate := true, writableUpdate := true })] }

/-- A create document for `nullableRelSchema` whose relationship carries
`{"data": null}`. -/
def nullRelDoc : Doc :=
  { id := none, type := "post", selfLink := none,
    attributes := none,
    relationships := some [("author", .robj none (some none))] }

/-- A schema with one non-nullable attribute that has a default. -/
def defaultAttrSchema : Schema :=
  { japi_resource_type := "thing", urlComponent := "things", idKey := "id",
    attrs := [("count",
      { mapped_attribute_name := "count", nullable := false, has_default := true,
        writableCreate := true, writableUpdate := true })],
    rels := [] }

/-- A valid create document for `defaultAttrSchema` that omits the defaulted
attribute. -/
def emptyThingDoc : Doc :=
  { id := none, type := "thing", selfLink := none,
    attributes := none, relationships := none }

/-! ### Helper functions used to state the round-trip characterizations -/

/-- The deserialized foreign-key value a successful relationship entry
writes. -/
def relFKVal : RelMember → Prim
  | .robj _ (some (some ident)) =>
    match pyParseInt? ident.rid with
    | some n => .int n
    | none => .null
  | _ => .null

/-- The model writes performed by the attribute-intersection loop. -/
def writeAttrs (S : Schema) (m : Model) (l : List (String × Prim)) : Model :=
  l.foldl (fun acc p =>
    match lookupAttr S p.1 with
    | some f => mset acc f.mapped_attribute_name p.2
    | none => acc) m

/-- The model writes performed by the relationship-intersection loop. -/
def writeRels (S : Schema) (m : Model) (l : List (String × RelMember)) : Model :=
  l.foldl (fun acc p =>
    match lookupRel S p.1 with
    | some f => mset acc f.mapped_fk_name (relFKVal p.2)
    | none => acc) m

/-- The (mapped name, value) pairs written by the attribute loop. -/
def attrPairs (S : Schema) (l : List (String × Prim)) : List (String × Prim) :=
  l.filterMap (fun p => (lookupAttr S p.1).map (fun f => (f.mapped_attribute_name, p.2)))

/-- The (foreign-key name, value) pairs written by the relationship loop. -/
def relPairs (S : Schema) (l : List (String × RelMember)) : List (String × Prim) :=
  l.filterMap (fun p => (lookupRel S p.1).map (fun f => (f.mapped_fk_name, relFKVal p.2)))

/-- The condition under which one attribute entry passes the
attribute-intersection loop of `Resource.deserialize`. -/
def attrOkC (S : Schema) (p : String × Prim) : Prop :=
  ∃ f, lookupAttr S p.1 = some f ∧ (p.2 = Prim.null → f.nullable = true) ∧
    f.writableCreate = true

/-- The condition under which one relationship entry passes the
relationship-intersection loop of `Resource.deserialize`: the member must be
a relationship object whose linkage is a non-null identifier of the related
type with an integer-parsable id (every other shape errors, see `procRel`). -/
def relOkC (S : Schema) (p : String × RelMember) : Prop :=
  ∃ f, lookupRel S p.1 = some f ∧ f.writableCreate = true ∧
    ∃ links ident, p.2 = RelMember.robj links (some (some ident)) ∧
      ident.rtype = f.relatedType ∧ ∃ nn, pyParseInt? ident.rid = some nn

/-- The mapped backing-store column names a schema touches, attribute
columns first, then foreign-key columns. -/
def mappedNames (S : Schema) : List String :=
  S.attrs.map (fun p => p.2.mapped_attribute_name)
    ++ S.rels.map (fun p => p.2.mapped_fk_name)

/-! ## Theorems -/

/-- C8: counter to the claim, an `Error` constructed with neither a source
pointer nor a source parameter still serializes a `source` member, because
`Error.__init__` stores `str(source_pointer)` — the truthy string "None" —
so the `if self.source_pointer or self.source_parameter` guard always fires.
The theorem evaluates the code at such an error: the serialized object
carries `source = {pointer: "None"}`. -/
theorem C8_source_member_always_serialized :
    ((badRequestE "boom" none none).json).source = some (some "None", none) ∧
    (badRequestE "boom" none none).source_pointer = "None" := by
  exact ⟨rfl, rfl⟩

/-- C2: evaluation of the code at the failing input.  `create_patch_dict`
on a document patching the writable to-one relationship `author` produces a
patch dict whose relationship entry is the deserialized foreign key `9`; but
`apply_patch_dict` raises `AssertionError` on any relationship entry because
it asserts `isinstance(value, ToOneRelationship)` on the *value* (the
foreign-key integer), not on the field descriptor.  The attribute part of
the same patch dict applies fine via the bound setter. -/
theorem C2_apply_patch_dict_asserts_on_relationship_value :
    Resource.create_patch_dict articleSchema articleDoc
      = .ok { attributes := [("title", .str "t")], relationships := [("author", .int 9)] } ∧
    Resource.apply_patch_dict articleSchema []
      { attributes := [("title", .str "t")], relationships := [("author", .int 9)] }
      = .error .assertionError ∧
    Resource.apply_patch_dict articleSchema []
      { attributes := [("title", .str "t")], relationships := [] }
      = .ok [("title", .str "t")] := by
  refine ⟨rfl, rfl, rfl⟩

/-- C3: evaluation of the code at the failing input.  Deserializing a create
document whose nullable to-one relationship carries `{"data": null}` raises
`TypeError` (the pre-check subscripts `input_value["data"]["type"]` with the
linkage being `None`) instead of succeeding with a `None` foreign key — even
though the field-level `ToOneRelationship.deserialize` explicitly maps a
`None` linkage to `None` (second conjunct), which shows the intent. -/
theorem C3_null_data_linkage_raises_type_error :
    Resource.deserialize nullableRelSchema nullRelDoc = .error .typeError ∧
    lookupRel nullableRelSchema "author"
      = some { mapped_fk_name := "author_id", relatedType := "person", nullable := true,
               has_default := false, writableCreate := true, writableUpdate := true } ∧
    ToOne.deserializeField
        { mapped_fk_name := "author_id", relatedType := "person", nullable := true,
          has_default := false, writableCreate := true, writableUpdate := true }
        (.robj none (some none))
      = .ok .null := ⟨rfl, rfl, rfl⟩

/-! ### Decimal repr / parse round trip -/

theorem char_toNat_digit (n : Nat) (h : n < 10) : (Char.ofNat (48 + n)).toNat = 48 + n := by
  have hv : Nat.isValidChar (48 + n) := Or.inl (by omega)
  rw [Char.ofNat, dif_pos hv]
  rfl

theorem isDigitChar_digit (n : Nat) (h : n < 10) :
    isDigitChar (Char.ofNat (48 + n)) = true := by
  simp only [isDigitChar, char_toNat_digit n h, Bool.and_eq_true, decide_eq_true_eq]
  omega

theorem digitVal_digit (n : Nat) (h : n < 10) : digitVal (Char.ofNat (48 + n)) = n := by
  simp [digitVal, char_toNat_digit n h]

theorem natDecAux_spec : ∀ (fuel n : Nat), n ≤ fuel →
    (natDecAux fuel n).all isDigitChar = true ∧
    (natDecAux fuel n).foldr (fun c acc => acc * 10 + digitVal c) 0 = n ∧
    (0 < n → natDecAux fuel n ≠ []) := by
  intro fuel
  induction fuel with
  | zero =>
    intro n hn
    have : n = 0 := Nat.le_zero.mp hn
    subst this
    exact ⟨rfl, rfl, fun h => absurd h (by omega)⟩
  | succ fuel ih =>
    intro n hn
    match n with
    | 0 => exact ⟨rfl, rfl, fun h => absurd h (by omega)⟩
    | m + 1 =>
      have hdiv : (m + 1) / 10 ≤ fuel := by
        have := Nat.div_lt_self (Nat.succ_pos m) (show 1 < 10 by norm_num)
        omega
      obtain ⟨h1, h2, _⟩ := ih ((m + 1) / 10) hdiv
      refine ⟨?_, ?_, fun _ => List.cons_ne_nil _ _⟩
      · rw [natDecAux]
        simp only [List.all_cons, Bool.and_eq_true]
        exact ⟨isDigitChar_digit _ (Nat.mod_lt _ (by norm_num)), h1⟩
      · rw [natDecAux]
        simp only [List.foldr_cons]
        rw [h2, digitVal_digit _ (Nat.mod_lt _ (by norm_num))]
        omega

theorem natDecRev_all_digits (n : Nat) : (natDecRev n).all isDigitChar = true :=
  (natDecAux_spec n n le_rfl).1

theorem natDecRev_ne_nil (n : Nat) (h : 0 < n) : natDecRev n ≠ [] :=
  (natDecAux_spec n n le_rfl).2.2 h

theorem natDecRev_foldr (n : Nat) :
    (natDecRev n).foldr (fun c acc => acc * 10 + digitVal c) 0 = n :=
  (natDecAux_spec n n le_rfl).2.1

theorem parseNatDigits_natDecRev (n : Nat) (h : 0 < n) :
    parseNatDigits? ((natDecRev n).reverse) = some n := by
  have hne : (natDecRev n).reverse ≠ [] := by
    simp only [ne_eq, List.reverse_eq_nil_iff]
    exact natDecRev_ne_nil n h
  have hall : ((natDecRev n).reverse).all isDigitChar = true := by
    rw [List.all_reverse]
    exact natDecRev_all_digits n
  rw [parseNatDigits?, if_neg (by simpa [List.isEmpty_iff] using hne), if_pos hall,
    List.foldl_reverse]
  exact congrArg some (natDecRev_foldr n)

theorem isDigitChar_ne_signs {c : Char} (h : isDigitChar c = true) :
    c ≠ '-' ∧ c ≠ '+' := by
  simp only [isDigitChar, Bool.and_eq_true, decide_eq_true_eq] at h
  constructor <;> rintro rfl <;> simp at h

theorem pyParseInt_mk (l : List Char) : pyParseInt? (String.mk l) = pyParseIntL? l := rfl

/-- Round trip: Python `int(str(i))` recovers `i`. -/
theorem pyParseInt_pyIntRepr (i : Int) : pyParseInt? (pyIntRepr i) = some i := by
  by_cases hneg : i < 0
  · have habs : 0 < i.natAbs := by omega
    rw [pyIntRepr, if_pos hneg, pyParseInt_mk]
    have : pyParseIntL? ('-' :: (natDecRev i.natAbs).reverse)
        = (parseNatDigits? ((natDecRev i.natAbs).reverse)).map (fun n => -(n : Int)) := by
      simp [pyParseIntL?]
    rw [this, parseNatDigits_natDecRev _ habs]
    have h2 : -(i.natAbs : Int) = i := by omega
    exact congrArg some h2
  · rw [pyIntRepr, if_neg hneg]
    by_cases hz : i.toNat = 0
    · have hi : i = 0 := by omega
      subst hi
      rfl
    · have hpos : 0 < i.toNat := Nat.pos_of_ne_zero hz
      rw [pyNatRepr, if_neg hz, pyParseInt_mk]
      obtain ⟨c, cs, hl⟩ : ∃ c cs, (natDecRev i.toNat).reverse = c :: cs := by
        cases h : (natDecRev i.toNat).reverse with
        | nil =>
          exact absurd (List.reverse_eq_nil_iff.mp h) (natDecRev_ne_nil _ hpos)
        | cons c cs => exact ⟨c, cs, rfl⟩
      have hd : isDigitChar c = true := by
        have := natDecRev_all_digits i.toNat
        rw [← List.all_reverse, hl, List.all_cons, Bool.and_eq_true] at this
        exact this.1
      obtain ⟨hc1, hc2⟩ := isDigitChar_ne_signs hd
      rw [hl]
      have : pyParseIntL? (c :: cs) = (parseNatDigits? (c :: cs)).map (fun n => (n : Int)) := by
        simp [pyParseIntL?, hc1, hc2]
      rw [this, ← hl, parseNatDigits_natDecRev _ hpos]
      have h2 : (i.toNat : Int) = i := by omega
      exact congrArg some h2

/-! ### C10 -/

theorem check_number_bad (s : String) (name : String) (hs : s ≠ "")
    (hbad : pyParseInt? s = none ∨ ∃ n, pyParseInt? s = some n ∧ n < 1) :
    ∃ e, check_number (some s) name = .error (.api e) ∧
      e.http_status = 400 ∧ e.source_parameter = some name := by
  rcases hbad with h | ⟨n, hn, hlt⟩
  · refine ⟨badRequestE ("The " ++ name ++ " must be an integer.") (some name) none,
      ?_, rfl, rfl⟩
    rw [check_number, if_neg hs, h]
  · refine ⟨badRequestE ("The " ++ name ++ " must be >= 1.") (some name) none,
      ?_, rfl, rfl⟩
    rw [check_number, if_neg hs, hn]
    simp [hlt]

/-- C10: supplying a non-empty `page[number]` or `page[size]` query string
that does not parse as an integer, or parses to an integer below 1, makes
`NumberSize.from_request` fail with a `BadRequest` (HTTP 400) whose source
parameter names the offending query parameter, and no paginator value is
constructed (the result is an error, not a paginator).  For `page[size]` the
statement assumes the `page[number]` check passed, since that check runs
first. -/
theorem C10_from_request_rejects_bad_page_params
    (req : PyRequest) (uc : String) (total ds : Int) (s : String)
    (hs : s ≠ "")
    (hbad : pyParseInt? s = none ∨ ∃ n, pyParseInt? s = some n ∧ n < 1) :
    (getParam req.query_args "page[number]" = some s →
      ∃ e, NumberSize.from_request req uc total ds = .error (.api e) ∧
        e.http_status = 400 ∧ e.source_parameter = some "page[number]") ∧
    (getParam req.query_args "page[size]" = some s →
      ∀ nv, check_number (getParam req.query_args "page[number]") "page[number]" = .ok nv →
      ∃ e, NumberSize.from_request req uc total ds = .error (.api e) ∧
        e.http_status = 400 ∧ e.source_parameter = some "page[size]") := by
  constructor
  · intro hnum
    obtain ⟨e, he, h4, hp⟩ := check_number_bad s "page[number]" hs hbad
    refine ⟨e, ?_, h4, hp⟩
    rw [NumberSize.from_request, hnum, he]
  · intro hsize nv hnv
    obtain ⟨e, he, h4, hp⟩ := check_number_bad s "page[size]" hs hbad
    refine ⟨e, ?_, h4, hp⟩
    rw [NumberSize.from_request, hnv, hsize, he]

/-- C10 witness: the concrete request `?page[number]=0` is rejected with a
400 whose source parameter is `page[number]`. -/
theorem C10_witness :
    ∃ e, NumberSize.from_request ⟨[("page[number]", "0")], "pre"⟩ "articles" 10 25
        = .error (.api e) ∧
      e.http_status = 400 ∧ e.source_parameter = some "page[number]" :=
  (C10_from_request_rejects_bad_page_params ⟨[("page[number]", "0")], "pre"⟩
    "articles" 10 25 "0" (by decide)
    (Or.inr ⟨0, by rfl, by decide⟩)).1 (by rfl)

/-! ### C6 -/

theorem splitLoop_escaped (fuel : Nat) (x : Char) (xs : List Char)
    (sub : String) (res : List String) :
    splitLoop (fuel + 1) (x :: xs) true sub res = splitLoop fuel xs false sub res := by
  simp [splitLoop]

theorem splitLoop_eq_specGo : ∀ (fuel : Nat) (l : List Char), l.length ≤ fuel →
    ∀ (sub : String) (res : List String),
      splitLoop fuel l false sub res = splitSpecGo l sub res := by
  intro fuel
  induction fuel using Nat.strong_induction_on with
  | _ fuel ih =>
    intro l hl sub res
    cases l with
    | nil => cases fuel <;> rfl
    | cons c rest =>
      cases fuel with
      | zero => simp at hl
      | succ f =>
        have hrest : rest.length ≤ f := by simp at hl; omega
        by_cases hc : c = ','
        · subst hc
          have h1 : splitLoop (f + 1) (',' :: rest) false sub res
              = splitLoop f rest false "" (flushTok sub res) := by
            simp [splitLoop]
          have h2 : splitSpecGo (',' :: rest) sub res
              = splitSpecGo rest "" (flushTok sub res) := by
            rw [splitSpecGo.eq_def]; simp
          rw [h1, h2]
          exact ih f (Nat.lt_succ_self _) rest hrest "" (flushTok sub res)
        · by_cases hb : c = '\\'
          · subst hb
            cases rest with
            | nil =>
              have h1 : splitLoop (f + 1) ['\\'] false sub res
                  = splitLoop f [] true (sub.push '\\') res := by
                simp [splitLoop, hc]
              have h2 : splitSpecGo ['\\'] sub res = flushTok (sub.push '\\') res := by
                rw [splitSpecGo.eq_def]; simp
              rw [h1, h2]
              cases f <;> rfl
            | cons next tail =>
              have h1 : splitLoop (f + 1) ('\\' :: next :: tail) false sub res
                  = splitLoop f (next :: tail) true (sub.push next) res := by
                simp [splitLoop, hc]
              have h2 : splitSpecGo ('\\' :: next :: tail) sub res
                  = splitSpecGo tail (sub.push next) res := by
                rw [splitSpecGo.eq_def]; simp
              rw [h1, h2]
              cases f with
              | zero => simp at hrest
              | succ f2 =>
                rw [splitLoop_escaped]
                exact ih f2 (by omega) tail (by simp at hrest; omega)
                  (sub.push next) res
          · have h1 : splitLoop (f + 1) (c :: rest) false sub res
                = splitLoop f rest false (sub.push c) res := by
              simp [splitLoop, hc, hb]
            have h2 : splitSpecGo (c :: rest) sub res
                = splitSpecGo rest (sub.push c) res := by
              rw [splitSpecGo.eq_def]; simp [hc, hb]
            rw [h1, h2]
            exact ih f (Nat.lt_succ_self _) rest hrest (sub.push c) res

/-- C6 (amended): `split_str_on_comma` splits on commas not preceded by an
odd run of backslashes, removes exactly one escaping backslash per escaped
character, and silently drops empty tokens — with the single amendment that
a backslash standing as the final character of the input is emitted
literally rather than dropped (first conjunct: full equivalence with the
recursive statement `splitSpec` of that discipline).  The claim's example
evaluates exactly as stated (second conjunct). -/
theorem C6_split_discipline :
    (∀ s : String, split_str_on_comma s = splitSpec s) ∧
    split_str_on_comma "hello,world\\,hello\\\\,again\\\\\\,world"
      = ["hello", "world,hello\\", "again\\,world"] := by
  constructor
  · intro s
    exact splitLoop_eq_specGo s.toList.length s.toList le_rfl "" []
  · rfl



/-- C6 counterexample: the claim says the escaping backslash is never
emitted "including when the backslash is the final character of the input";
on input `a\` the code emits that final backslash (`["a\"]`), while the
discipline exactly as claimed (`splitClaimed`) would drop it and return
`["a"]`. -/
theorem C6_counterexample_trailing_backslash :
    split_str_on_comma "a\\" = ["a\\"] ∧ splitClaimed "a\\" = ["a"] := ⟨rfl, rfl⟩

/-! ### C4 -/

/-- C4 (amended): without a known to-one/to-many discipline, structural
validation of a relationship object (non-empty, keys among data/links/meta,
links and meta members valid) accepts it if and only if it contains a `data`
member: an object with only `links` or only `meta` is rejected with the
structural error "Missing data member".  `data` is mandatory always, not
only under a known discipline. -/
theorem C4_relationship_object_requires_data (fields : List (String × JVal)) (sp : String)
    (hne : fields ≠ [])
    (hsub : fields.all (fun p => p.1 = "links" ∨ p.1 = "data" ∨ p.1 = "meta") = true)
    (hlinks : (match jget? fields "links" with
               | some v => assert_links_object v (sp ++ "links/")
               | none => Except.ok ()) = Except.ok ())
    (hmeta : (match jget? fields "meta" with
              | some v => assert_meta_object v (sp ++ "meta/")
              | none => Except.ok ()) = Except.ok ()) :
    assert_relationship_object (.jobj fields) sp false false
      = (match jget? fields "data" with
         | some _ => Except.ok ()
         | none => Except.error (.api (badRequestE "Missing data member" none (some sp)))) := by
  cases hdata : jget? fields "data" with
  | none =>
    simp [assert_relationship_object, List.isEmpty_iff, hne, hsub, hlinks, hmeta, hdata]
    intro x y hmem h1 h2 h3
    have hx := List.all_eq_true.mp hsub ⟨x, y⟩ hmem
    simp only [decide_eq_true_eq] at hx
    tauto
  | some v =>
    simp [assert_relationship_object, List.isEmpty_iff, hne, hsub, hlinks, hmeta, hdata]
    intro x y hmem h1 h2
    have hx := List.all_eq_true.mp hsub ⟨x, y⟩ hmem
    simp only [decide_eq_true_eq] at hx
    tauto

/-- C4 witness: a relationship object consisting of only a (null-valued)
`data` member is accepted by the undisciplined structural check. -/
theorem C4_witness :
    assert_relationship_object (.jobj [("data", .jnull)]) "/" false false = .ok () :=
  (C4_relationship_object_requires_data [("data", .jnull)] "/"
    (List.cons_ne_nil _ _) (by decide) rfl rfl).trans rfl

/-- C4 counterexample: the claim says an object containing only `links`
passes the undisciplined structural check; the code rejects it with
"Missing data member". -/
theorem C4_counterexample_links_only_rejected :
    assert_relationship_object (.jobj [("links", .jobj [("self", .jstr "url")])])
        "/" false false
      = .error (.api (badRequestE "Missing data member" none (some "/"))) := rfl

/-! ### C9 -/

theorem deepcopyEntries_spec : ∀ (l : List (String × Nat)) (σ : Store) (n : Nat),
    (deepcopyEntries σ n l).2.1 = n + l.length ∧
    (∀ p, p < n → (deepcopyEntries σ n l).1 p = σ p) ∧
    (∀ e ∈ (deepcopyEntries σ n l).2.2,
      n ≤ e.2 ∧ e.2 < (deepcopyEntries σ n l).2.1) := by
  intro l
  induction l with
  | nil =>
    intro σ n
    exact ⟨rfl, fun p _ => rfl, by simp [deepcopyEntries]⟩
  | cons kv rest ih =>
    intro σ n
    obtain ⟨k, a⟩ := kv
    obtain ⟨ih1, ih2, ih3⟩ := ih (writeStore σ n (σ a)) (n + 1)
    refine ⟨?_, ?_, ?_⟩
    · show (deepcopyEntries (writeStore σ n (σ a)) (n + 1) rest).2.1 = _
      rw [ih1]
      simp
      omega
    · intro p hp
      show (deepcopyEntries (writeStore σ n (σ a)) (n + 1) rest).1 p = σ p
      rw [ih2 p (by omega)]
      simp only [writeStore]
      rw [if_neg (by omega)]
    · intro e he
      show n ≤ e.2 ∧ e.2 < (deepcopyEntries (writeStore σ n (σ a)) (n + 1) rest).2.1
      rcases (List.mem_cons.mp he) with h | h
      · subst h
        rw [ih1]
        simp
        omega
      · obtain ⟨hl, hr⟩ := ih3 e h
        exact ⟨by omega, hr⟩

theorem allocEntries_spec : ∀ (l : List (String × FieldRecord)) (σ : Store) (n : Nat),
    (allocEntries σ n l).2.1 = n + l.length ∧
    (∀ p, p < n → (allocEntries σ n l).1 p = σ p) ∧
    (∀ e ∈ (allocEntries σ n l).2.2,
      n ≤ e.2 ∧ e.2 < (allocEntries σ n l).2.1) := by
  intro l
  induction l with
  | nil =>
    intro σ n
    exact ⟨rfl, fun p _ => rfl, by simp [allocEntries]⟩
  | cons kv rest ih =>
    intro σ n
    obtain ⟨k, v⟩ := kv
    obtain ⟨ih1, ih2, ih3⟩ := ih (writeStore σ n v) (n + 1)
    refine ⟨?_, ?_, ?_⟩
    · show (allocEntries (writeStore σ n v) (n + 1) rest).2.1 = _
      rw [ih1]
      simp
      omega
    · intro p hp
      show (allocEntries (writeStore σ n v) (n + 1) rest).1 p = σ p
      rw [ih2 p (by omega)]
      simp only [writeStore]
      rw [if_neg (by omega)]
    · intro e he
      show n ≤ e.2 ∧ e.2 < (allocEntries (writeStore σ n v) (n + 1) rest).2.1
      rcases (List.mem_cons.mp he) with h | h
      · subst h
        rw [ih1]
        simp
        omega
      · obtain ⟨hl, hr⟩ := ih3 e h
        exact ⟨by omega, hr⟩

/-- C9: registration-time value-copy invariant.  After registering a
resource class (merging the parents' field maps, deep-copying them, and
overlaying the local declarations), every field descriptor reachable through
the new class's attribute or relationship map lives at a fresh address
(`≥ n`); the registration itself leaves every pre-existing descriptor (any
map whose addresses are below the allocation counter — a parent's map or a
previously registered sibling's map) untouched; and mutating any
descriptor at a fresh address — in particular any descriptor reached
through the new class's maps — never changes what a pre-existing class's
map reads. -/
theorem C9_register_independence (σ : Store) (n : Nat)
    (parentAttrs parentRels : List (List (String × Nat)))
    (localAttrs localRels : List (String × FieldRecord))
    (otherMap : List (String × Nat)) (hother : ∀ e ∈ otherMap, e.2 < n) :
    (∀ e ∈ (ResourceMeta.register σ n parentAttrs parentRels localAttrs localRels).2.2.1,
       n ≤ e.2) ∧
    (∀ e ∈ (ResourceMeta.register σ n parentAttrs parentRels localAttrs localRels).2.2.2,
       n ≤ e.2) ∧
    (∀ e ∈ otherMap,
       (ResourceMeta.register σ n parentAttrs parentRels localAttrs localRels).1 e.2
         = σ e.2) ∧
    (∀ a, n ≤ a → ∀ v, ∀ e ∈ otherMap,
       writeStore (ResourceMeta.register σ n parentAttrs parentRels localAttrs localRels).1
           a v e.2
         = (ResourceMeta.register σ n parentAttrs parentRels localAttrs localRels).1 e.2) := by
  obtain ⟨s11, s12, s13⟩ := deepcopyEntries_spec (mergeParents parentAttrs) σ n
  set r1 := deepcopyEntries σ n (mergeParents parentAttrs) with hr1
  obtain ⟨s21, s22, s23⟩ := deepcopyEntries_spec (mergeParents parentRels) r1.1 r1.2.1
  set r2 := deepcopyEntries r1.1 r1.2.1 (mergeParents parentRels) with hr2
  obtain ⟨s31, s32, s33⟩ := allocEntries_spec localAttrs r2.1 r2.2.1
  set r3 := allocEntries r2.1 r2.2.1 localAttrs with hr3
  obtain ⟨s41, s42, s43⟩ := allocEntries_spec localRels r3.1 r3.2.1
  set r4 := allocEntries r3.1 r3.2.1 localRels with hr4
  have hreg : ResourceMeta.register σ n parentAttrs parentRels localAttrs localRels
      = (r4.1, r4.2.1, overlayMap r1.2.2 r3.2.2, overlayMap r2.2.2 r4.2.2) := rfl
  have hn1 : n ≤ r1.2.1 := by omega
  have hn2 : r1.2.1 ≤ r2.2.1 := by omega
  have hn3 : r2.2.1 ≤ r3.2.1 := by omega
  have hpres : ∀ p, p < n → r4.1 p = σ p := by
    intro p hp
    rw [s42 p (by omega), s32 p (by omega), s22 p (by omega), s12 p hp]
  refine ⟨?_, ?_, ?_, ?_⟩
  · intro e he
    rw [hreg] at he
    simp only [overlayMap, List.mem_append] at he
    rcases he with h | h
    · exact le_trans (le_trans hn1 hn2) (s33 e h).1
    · exact (s13 e h).1
  · intro e he
    rw [hreg] at he
    simp only [overlayMap, List.mem_append] at he
    rcases he with h | h
    · exact le_trans (le_trans hn1 (le_trans hn2 hn3)) (s43 e h).1
    · exact le_trans hn1 (s23 e h).1
  · intro e he
    rw [hreg]
    exact hpres e.2 (hother e he)
  · intro a ha v e he
    rw [hreg]
    show writeStore r4.1 a v e.2 = r4.1 e.2
    have : e.2 ≠ a := by
      have := hother e he
      omega
    simp only [writeStore]
    rw [if_neg this]

/-- C9 witness: a concrete registration (one inherited attribute at address
0, counter 1) applied through the theorem. -/
theorem C9_witness :
    (∀ e ∈ (ResourceMeta.register (fun _ => ⟨"f", false, false⟩) 1
        [[("a", 0)]] [] [] []).2.2.1, 1 ≤ e.2) ∧
    (∀ e ∈ (ResourceMeta.register (fun _ => ⟨"f", false, false⟩) 1
        [[("a", 0)]] [] [] []).2.2.2, 1 ≤ e.2) ∧
    (∀ e ∈ [(("a", 0) : String × Nat)],
       (ResourceMeta.register (fun _ => ⟨"f", false, false⟩) 1 [[("a", 0)]] [] [] []).1 e.2
         = (fun _ => (⟨"f", false, false⟩ : FieldRecord)) e.2) ∧
    (∀ a, 1 ≤ a → ∀ v, ∀ e ∈ [(("a", 0) : String × Nat)],
       writeStore (ResourceMeta.register (fun _ => ⟨"f", false, false⟩) 1
           [[("a", 0)]] [] [] []).1 a v e.2
         = (ResourceMeta.register (fun _ => ⟨"f", false, false⟩) 1
             [[("a", 0)]] [] [] []).1 e.2) :=
  C9_register_independence (fun _ => ⟨"f", false, false⟩) 1 [[("a", 0)]] [] [] []
    [("a", 0)] (by simp)

/-! ### C7 -/

theorem sparse_fold_some (S : Schema) :
    ∀ (args : List (String × String)) (acc1 acc2 : List String),
    args.foldl (sparseStep S) (some acc1, some acc2) =
      (some (acc1 ++ ((args.filter (fun kv => isFieldsKey kv.1)).map
          (fun kv => sparseEntries kv.2)).flatten),
       some (acc2 ++ ((args.filter (fun kv => isFieldsKey kv.1)).map
          (fun kv => (sparseEntries kv.2).map (sparseSubst S))).flatten)) := by
  intro args
  induction args with
  | nil => intro acc1 acc2; simp
  | cons kv rest ih =>
    intro acc1 acc2
    by_cases h : isFieldsKey kv.1
    · rw [List.foldl_cons]
      have hstep : sparseStep S (some acc1, some acc2) kv
          = (some (acc1 ++ sparseEntries kv.2),
             some (acc2 ++ (sparseEntries kv.2).map (sparseSubst S))) := by
        simp [sparseStep, h]
      rw [hstep, ih, List.filter_cons_of_pos (by exact h)]
      simp [List.append_assoc]
    · rw [List.foldl_cons]
      have hstep : sparseStep S (some acc1, some acc2) kv = (some acc1, some acc2) := by
        simp [sparseStep, h]
      rw [hstep, ih, List.filter_cons_of_neg (by exact h)]

/-- C7: `get_sparse_fields` returns the unset sentinel (`none`, meaning all
fields — distinct by type from an explicit empty list, meaning no fields)
exactly when no `fields[...]` parameter occurs; otherwise, accumulated over
every `fields[...]` parameter in order, each entry (comma-split with
escapes, stripped, empties dropped) contributes itself to the to-return
output, and to the for-query output contributes the mapped foreign-key name
when it names a relationship and itself otherwise (first conjunct).  The
spec's example — `fields[article]=title,author` with `author` a relationship
with foreign key `author_id` — evaluates exactly as stated (second
conjunct). -/
theorem C7_get_sparse_fields_characterization :
    (∀ (args : List (String × String)) (S : Schema),
      get_sparse_fields args S =
        if args.filter (fun kv => isFieldsKey kv.1) = [] then (none, none)
        else
          (some (((args.filter (fun kv => isFieldsKey kv.1)).map
              (fun kv => sparseEntries kv.2)).flatten),
           some (((args.filter (fun kv => isFieldsKey kv.1)).map
              (fun kv => (sparseEntries kv.2).map (sparseSubst S))).flatten))) ∧
    get_sparse_fields [("fields[article]", "title,author")] articleSchema
      = (some ["title", "author"], some ["title", "author_id"]) := by
  constructor
  · intro args S
    induction args with
    | nil => rfl
    | cons kv rest ih =>
      by_cases h : isFieldsKey kv.1
      · show List.foldl (sparseStep S) (sparseStep S (none, none) kv) rest = _
        have hstep : sparseStep S (none, none) kv
            = (some (sparseEntries kv.2),
               some ((sparseEntries kv.2).map (sparseSubst S))) := by
          simp [sparseStep, h]
        rw [hstep, sparse_fold_some, List.filter_cons_of_pos (by exact h)]
        rw [if_neg (by simp)]
        simp
      · show List.foldl (sparseStep S) (sparseStep S (none, none) kv) rest = _
        have hstep : sparseStep S (none, none) kv = (none, none) := by
          simp [sparseStep, h]
        rw [hstep, List.filter_cons_of_neg (by exact h)]
        exact ih
  · rfl

/-! ### C5 -/

theorem procAttrList_cons (S : Schema) (m : Model) (k : String) (v : Prim)
    (rest : List (String × Prim)) :
    procAttrList S m ((k, v) :: rest)
      = match procAttr S m k v with
        | .error e => .error e
        | .ok m2 => procAttrList S m2 rest := rfl

theorem procRelList_cons (S : Schema) (m : Model) (k : String) (v : RelMember)
    (rest : List (String × RelMember)) :
    procRelList S m ((k, v) :: rest)
      = match procRel S m k v with
        | .error e => .error e
        | .ok m2 => procRelList S m2 rest := rfl

theorem procAttr_error_shape (S : Schema) (m : Model) (k : String) (v : Prim) (e : PyErr)
    (h : procAttr S m k v = .error e) :
    e = .keyError ∨ e = .api (unprocessableE "Non-nullable attribute set to None") ∨
      e = .api (forbiddenE "Cannot write to field") := by
  unfold procAttr at h
  split at h
  · exact Or.inl (Except.error.inj h).symm
  · split at h
    · exact Or.inr (Or.inl (Except.error.inj h).symm)
    · split at h
      · exact Or.inr (Or.inr (Except.error.inj h).symm)
      · simp at h

theorem deserializeField_error_shape (f : RelField) (v : RelMember) (e : PyErr)
    (h : ToOne.deserializeField f v = .error e) :
    e = .typeError ∨ e = .keyError ∨ e = .valueError ∨
      e = .api (badRequestE "Relationship type does not match definition" none none) := by
  unfold ToOne.deserializeField at h
  split at h
  · exact Or.inl (Except.error.inj h).symm
  · split at h
    · exact Or.inr (Or.inl (Except.error.inj h).symm)
    · simp at h
    · split at h
      · exact Or.inr (Or.inr (Or.inr (Except.error.inj h).symm))
      · split at h
        · exact Or.inr (Or.inr (Or.inl (Except.error.inj h).symm))
        · simp at h

theorem procRel_error_shape (S : Schema) (m : Model) (k : String) (v : RelMember)
    (e : PyErr) (h : procRel S m k v = .error e) :
    e = .keyError ∨ e = .typeError ∨ e = .valueError ∨
      e = .api (forbiddenE "Cannot write to field") ∨
      e = .api (unprocessableE "Non-nullable relationship set to None") ∨
      e = .api (badRequestE "Type field does not match schema" none none) ∨
      e = .api (badRequestE "Relationship type does not match definition" none none) := by
  unfold procRel at h
  split at h
  · exact Or.inl (Except.error.inj h).symm
  · split at h
    · exact Or.inr (Or.inr (Or.inr (Or.inl (Except.error.inj h).symm)))
    · split at h
      · -- vnull
        split at h
        · exact Or.inr (Or.inr (Or.inr (Or.inr (Or.inl (Except.error.inj h).symm))))
        · rw [show ∀ g : RelField, ToOne.deserializeField g .vnull = Except.error .typeError
              from fun _ => rfl] at h
          simp only [] at h
          exact Or.inr (Or.inl (Except.error.inj h).symm)
      · -- robj
        split at h
        · exact Or.inl (Except.error.inj h).symm
        · exact Or.inr (Or.inl (Except.error.inj h).symm)
        · split at h
          · exact Or.inr (Or.inr (Or.inr (Or.inr (Or.inr (Or.inl
              (Except.error.inj h).symm)))))
          · split at h
            · rename_i e2 heq
              have := deserializeField_error_shape _ _ _ heq
              rcases (Except.error.inj h).symm with rfl
              tauto
            · simp at h

theorem procAttrList_error_shape (S : Schema) :
    ∀ (l : List (String × Prim)) (m : Model) (e : PyErr),
    procAttrList S m l = .error e →
    e = .keyError ∨ e = .api (unprocessableE "Non-nullable attribute set to None") ∨
      e = .api (forbiddenE "Cannot write to field") := by
  intro l
  induction l with
  | nil => intro m e h; simp [procAttrList] at h
  | cons kv rest ih =>
    intro m e h
    obtain ⟨k, v⟩ := kv
    rw [procAttrList_cons] at h
    cases hp : procAttr S m k v with
    | error e2 =>
      rw [hp] at h
      simp only [] at h
      exact (Except.error.inj h) ▸ procAttr_error_shape S m k v e2 hp
    | ok m2 =>
      rw [hp] at h
      exact ih m2 e h

theorem procRelList_error_shape (S : Schema) :
    ∀ (l : List (String × RelMember)) (m : Model) (e : PyErr),
    procRelList S m l = .error e →
    e = .keyError ∨ e = .typeError ∨ e = .valueError ∨
      e = .api (forbiddenE "Cannot write to field") ∨
      e = .api (unprocessableE "Non-nullable relationship set to None") ∨
      e = .api (badRequestE "Type field does not match schema" none none) ∨
      e = .api (badRequestE "Relationship type does not match definition" none none) := by
  intro l
  induction l with
  | nil => intro m e h; simp [procRelList] at h
  | cons kv rest ih =>
    intro m e h
    obtain ⟨k, v⟩ := kv
    rw [procRelList_cons] at h
    cases hp : procRel S m k v with
    | error e2 =>
      rw [hp] at h
      simp only [] at h
      exact (Except.error.inj h) ▸ procRel_error_shape S m k v e2 hp
    | ok m2 =>
      rw [hp] at h
      exact ih m2 e h

theorem unprocessableE_inj {d1 d2 : String} (h : unprocessableE d1 = unprocessableE d2) :
    d1 = d2 := by
  simpa [unprocessableE, mkError, ApiError.mk.injEq] using h

theorem forbiddenE_ne_unprocessableE (d1 d2 : String) :
    forbiddenE d1 ≠ unprocessableE d2 := by
  simp [forbiddenE, unprocessableE, mkError, ApiError.mk.injEq]

theorem badRequestE_ne_unprocessableE (d1 : String) (sp sq : Option String) (d2 : String) :
    badRequestE d1 sp sq ≠ unprocessableE d2 := by
  simp [badRequestE, unprocessableE, mkError, ApiError.mk.injEq]

/-- Auxiliary for C5: under a matching type, no extra attribute keys and no
absent required attribute, `Resource.deserialize` never returns an
`UnprocessableEntity` whose detail is `d`, for any `d` distinct from the
details the remaining code paths can produce. -/
theorem deserialize_no_partition_error (S : Schema) (D : Doc)
    (hty' : ¬ (D.type ≠ S.japi_resource_type))
    (hfilter : ¬ (((D.attributes.getD []).filter
        (fun q => (lookupAttr S q.1).isNone)) ≠ []))
    (hmiss : ¬ ((S.attrs.filter
        (fun p => !((D.attributes.getD []).any (fun q => q.1 == p.1)))).any
        (fun p => !(p.2.has_default || p.2.nullable)) = true))
    (d : String)
    (hd1 : d ≠ "Non-nullable attribute set to None")
    (hd2 : d ≠ "Extra relationships")
    (hd3 : d ≠ "Missing relationship")
    (hd4 : d ≠ "Non-nullable relationship set to None") :
    Resource.deserialize S D ≠ .error (.api (unprocessableE d)) := by
  intro hcon
  unfold Resource.deserialize at hcon
  rw [if_neg hty', if_neg hfilter, if_neg hmiss] at hcon
  cases hres : procAttrList S [] (D.attributes.getD []) with
  | error e =>
    rw [hres] at hcon
    simp only [] at hcon
    have hsh := procAttrList_error_shape S _ _ _ hres
    rw [Except.error.inj hcon] at hsh
    rcases hsh with h | h | h
    · simp at h
    · exact hd1 (unprocessableE_inj (PyErr.api.inj h))
    · exact absurd (PyErr.api.inj h).symm (forbiddenE_ne_unprocessableE _ _)
  | ok m1 =>
    rw [hres] at hcon
    simp only [] at hcon
    split at hcon
    · exact hd2 (unprocessableE_inj (PyErr.api.inj (Except.error.inj hcon))).symm
    · split at hcon
      · exact hd3 (unprocessableE_inj (PyErr.api.inj (Except.error.inj hcon))).symm
      · have hsh := procRelList_error_shape S _ _ _ hcon
        rcases hsh with h | h | h | h | h | h | h
        · simp at h
        · simp at h
        · simp at h
        · exact absurd (PyErr.api.inj h) (forbiddenE_ne_unprocessableE _ _).symm
        · exact hd4 (unprocessableE_inj (PyErr.api.inj h))
        · exact absurd (PyErr.api.inj h).symm (badRequestE_ne_unprocessableE _ _ _ _)
        · exact absurd (PyErr.api.inj h).symm (badRequestE_ne_unprocessableE _ _ _ _)

/-- C5: for a create document whose type matches: an attribute key not
declared in the schema makes `Resource.deserialize` raise the 422 semantic
error "Extra attributes" (first conjunct); with no such extra key, a schema
attribute that is neither nullable nor has a default and is absent from the
document makes it raise the 422 semantic error "Missing attributes" (second
conjunct); when neither condition holds, neither of those two errors is
raised (third conjunct — other, differently worded errors remain possible,
e.g. a null value for a non-nullable attribute). -/
theorem C5_deserialize_attribute_partition (S : Schema) (D : Doc)
    (hty : D.type = S.japi_resource_type) :
    ((∃ p ∈ D.attributes.getD [], lookupAttr S p.1 = none) →
      Resource.deserialize S D = .error (.api (unprocessableE "Extra attributes"))) ∧
    ((∀ p ∈ D.attributes.getD [], lookupAttr S p.1 ≠ none) →
     (∃ p ∈ S.attrs, p.2.has_default = false ∧ p.2.nullable = false ∧
        (D.attributes.getD []).any (fun q => q.1 == p.1) = false) →
      Resource.deserialize S D = .error (.api (unprocessableE "Missing attributes"))) ∧
    ((∀ p ∈ D.attributes.getD [], lookupAttr S p.1 ≠ none) →
     (∀ p ∈ S.attrs, p.2.has_default = false → p.2.nullable = false →
        (D.attributes.getD []).any (fun q => q.1 == p.1) = true) →
      Resource.deserialize S D ≠ .error (.api (unprocessableE "Extra attributes")) ∧
      Resource.deserialize S D ≠ .error (.api (unprocessableE "Missing attributes"))) := by
  have hty' : ¬ (D.type ≠ S.japi_resource_type) := by simp [hty]
  have hnoextra : (∀ p ∈ D.attributes.getD [], lookupAttr S p.1 ≠ none) →
      ¬ (((D.attributes.getD []).filter (fun q => (lookupAttr S q.1).isNone)) ≠ []) := by
    intro hall
    simp only [ne_eq, not_not]
    rw [List.filter_eq_nil_iff]
    intro a ha
    simp only [Option.isNone_iff_eq_none]
    exact hall a ha
  refine ⟨?_, ?_, ?_⟩
  · rintro ⟨p, hpmem, hpnone⟩
    have hfilter : ((D.attributes.getD []).filter
        (fun q => (lookupAttr S q.1).isNone)) ≠ [] := by
      intro hnil
      have hmem : p ∈ (D.attributes.getD []).filter
          (fun q => (lookupAttr S q.1).isNone) :=
        List.mem_filter.mpr ⟨hpmem, by simp [hpnone]⟩
      rw [hnil] at hmem
      simp at hmem
    show Resource.deserialize S D = _
    unfold Resource.deserialize
    rw [if_neg hty', if_pos hfilter]
  · rintro hknown ⟨p, hpmem, hdef, hnul, habs⟩
    have hmiss : (S.attrs.filter
        (fun p => !((D.attributes.getD []).any (fun q => q.1 == p.1)))).any
        (fun p => !(p.2.has_default || p.2.nullable)) = true := by
      rw [List.any_eq_true]
      exact ⟨p, List.mem_filter.mpr ⟨hpmem, by simp [habs]⟩, by simp [hdef, hnul]⟩
    show Resource.deserialize S D = _
    unfold Resource.deserialize
    rw [if_neg hty', if_neg (hnoextra hknown), if_pos hmiss]
  · intro hknown hall
    have hmiss : ¬ ((S.attrs.filter
        (fun p => !((D.attributes.getD []).any (fun q => q.1 == p.1)))).any
        (fun p => !(p.2.has_default || p.2.nullable)) = true) := by
      rw [List.any_eq_true]
      rintro ⟨p, hpmem, hpflag⟩
      obtain ⟨hpS, hpabs⟩ := List.mem_filter.mp hpmem
      simp only [Bool.not_eq_eq_eq_not, Bool.not_true, Bool.or_eq_false_iff] at hpflag
      have := hall p hpS hpflag.1 hpflag.2
      rw [this] at hpabs
      simp at hpabs
    exact ⟨deserialize_no_partition_error S D hty' (hnoextra hknown) hmiss
        "Extra attributes" (by decide) (by decide) (by decide) (by decide),
      deserialize_no_partition_error S D hty' (hnoextra hknown) hmiss
        "Missing attributes" (by decide) (by decide) (by decide) (by decide)⟩

/-- C5 witness: a concrete document with the unknown attribute key `bogus`
is rejected with the 422 "Extra attributes" error. -/
theorem C5_witness :
    Resource.deserialize defaultAttrSchema
        { id := none, type := "thing", selfLink := none,
          attributes := some [("bogus", .str "x")], relationships := none }
      = .error (.api (unprocessableE "Extra attributes")) :=
  (C5_deserialize_attribute_partition defaultAttrSchema
    { id := none, type := "thing", selfLink := none,
      attributes := some [("bogus", .str "x")], relationships := none } rfl).1
    ⟨("bogus", .str "x"), by simp, rfl⟩

/-! ### C1: association-list and write-shape lemmas -/

theorem findPair_of_mem {α : Type} :
    ∀ {l : List (String × α)} {k : String} {v : α},
    (l.map Prod.fst).Nodup → (k, v) ∈ l →
    l.find? (fun p => p.1 == k) = some (k, v) := by
  intro l
  induction l with
  | nil => intro k v _ h; simp at h
  | cons yw rest ih =>
    intro k v hnd hmem
    obtain ⟨y, w⟩ := yw
    simp only [List.map_cons, List.nodup_cons] at hnd
    rcases List.mem_cons.mp hmem with h | h
    · injection h with h1 h2
      subst h1
      subst h2
      simp [List.find?]
    · have hky : y ≠ k := by
        intro hyk
        subst hyk
        exact hnd.1 (List.mem_map.mpr ⟨(y, v), h, rfl⟩)
      rw [List.find?]
      have : ((y, w).1 == k) = false := by
        simp [hky]
      rw [this]
      exact ih hnd.2 h

theorem mget_append_of_mem {L : List (String × Prim)} {x : String} {v : Prim}
    (hnd : (L.map Prod.fst).Nodup) (hmem : (x, v) ∈ L) (m : Model) :
    mget (L ++ m) x = v := by
  unfold mget
  rw [List.find?_append, findPair_of_mem hnd hmem]
  rfl

theorem mget_append_of_not_mem {L : List (String × Prim)} {x : String}
    (h : x ∉ L.map Prod.fst) (m : Model) :
    mget (L ++ m) x = mget m x := by
  unfold mget
  rw [List.find?_append]
  have hfind : L.find? (fun p => p.1 == x) = none := by
    rw [List.find?_eq_none]
    intro p hp
    simp only [beq_iff_eq]
    intro hpx
    exact h (List.mem_map.mpr ⟨p, hp, hpx⟩)
  rw [hfind]
  rfl

theorem lookupAttr_mem {S : Schema} {k : String} {f : AttrField}
    (h : lookupAttr S k = some f) : (k, f) ∈ S.attrs := by
  unfold lookupAttr at h
  cases hf : S.attrs.find? (fun p => p.1 == k) with
  | none => rw [hf] at h; simp at h
  | some pr =>
    rw [hf] at h
    have hkey : pr.1 = k := by simpa using List.find?_some hf
    have hval : pr.2 = f := by simpa using h
    have := List.mem_of_find?_eq_some hf
    rwa [show pr = (k, f) from Prod.ext hkey hval] at this

theorem lookupRel_mem {S : Schema} {k : String} {f : RelField}
    (h : lookupRel S k = some f) : (k, f) ∈ S.rels := by
  unfold lookupRel at h
  cases hf : S.rels.find? (fun p => p.1 == k) with
  | none => rw [hf] at h; simp at h
  | some pr =>
    rw [hf] at h
    have hkey : pr.1 = k := by simpa using List.find?_some hf
    have hval : pr.2 = f := by simpa using h
    have := List.mem_of_find?_eq_some hf
    rwa [show pr = (k, f) from Prod.ext hkey hval] at this

theorem lookupAttr_of_mem {S : Schema} (hnd : (S.attrs.map Prod.fst).Nodup)
    {k : String} {f : AttrField} (h : (k, f) ∈ S.attrs) :
    lookupAttr S k = some f := by
  unfold lookupAttr
  rw [findPair_of_mem hnd h]
  rfl

theorem lookupRel_of_mem {S : Schema} (hnd : (S.rels.map Prod.fst).Nodup)
    {k : String} {f : RelField} (h : (k, f) ∈ S.rels) :
    lookupRel S k = some f := by
  unfold lookupRel
  rw [findPair_of_mem hnd h]
  rfl

theorem writeAttrs_eq_append (S : Schema) :
    ∀ (l : List (String × Prim)) (m : Model),
    writeAttrs S m l = (attrPairs S l).reverse ++ m := by
  intro l
  induction l with
  | nil => intro m; simp [writeAttrs, attrPairs]
  | cons kv rest ih =>
    intro m
    obtain ⟨k, v⟩ := kv
    cases hl : lookupAttr S k with
    | none =>
      have h1 : writeAttrs S m ((k, v) :: rest) = writeAttrs S m rest := by
        simp [writeAttrs, hl]
      have h2 : attrPairs S ((k, v) :: rest) = attrPairs S rest := by
        simp [attrPairs, List.filterMap_cons, hl]
      rw [h1, h2, ih]
    | some f =>
      have h1 : writeAttrs S m ((k, v) :: rest)
          = writeAttrs S (mset m f.mapped_attribute_name v) rest := by
        simp [writeAttrs, hl]
      have h2 : attrPairs S ((k, v) :: rest)
          = (f.mapped_attribute_name, v) :: attrPairs S rest := by
        simp [attrPairs, List.filterMap_cons, hl]
      rw [h1, h2, ih]
      simp [mset]

theorem writeRels_eq_append (S : Schema) :
    ∀ (l : List (String × RelMember)) (m : Model),
    writeRels S m l = (relPairs S l).reverse ++ m := by
  intro l
  induction l with
  | nil => intro m; simp [writeRels, relPairs]
  | cons kv rest ih =>
    intro m
    obtain ⟨k, v⟩ := kv
    cases hl : lookupRel S k with
    | none =>
      have h1 : writeRels S m ((k, v) :: rest) = writeRels S m rest := by
        simp [writeRels, hl]
      have h2 : relPairs S ((k, v) :: rest) = relPairs S rest := by
        simp [relPairs, List.filterMap_cons, hl]
      rw [h1, h2, ih]
    | some f =>
      have h1 : writeRels S m ((k, v) :: rest)
          = writeRels S (mset m f.mapped_fk_name (relFKVal v)) rest := by
        simp [writeRels, hl]
      have h2 : relPairs S ((k, v) :: rest)
          = (f.mapped_fk_name, relFKVal v) :: relPairs S rest := by
        simp [relPairs, List.filterMap_cons, hl]
      rw [h1, h2, ih]
      simp [mset]

theorem attrPairs_cons_none {S : Schema} {k : String} {v : Prim}
    {rest : List (String × Prim)} (hl : lookupAttr S k = none) :
    attrPairs S ((k, v) :: rest) = attrPairs S rest := by
  simp [attrPairs, List.filterMap_cons, hl]

theorem attrPairs_cons_some {S : Schema} {k : String} {v : Prim}
    {rest : List (String × Prim)} {f : AttrField} (hl : lookupAttr S k = some f) :
    attrPairs S ((k, v) :: rest)
      = (f.mapped_attribute_name, v) :: attrPairs S rest := by
  simp [attrPairs, List.filterMap_cons, hl]

theorem relPairs_cons_none {S : Schema} {k : String} {v : RelMember}
    {rest : List (String × RelMember)} (hl : lookupRel S k = none) :
    relPairs S ((k, v) :: rest) = relPairs S rest := by
  simp [relPairs, List.filterMap_cons, hl]

theorem relPairs_cons_some {S : Schema} {k : String} {v : RelMember}
    {rest : List (String × RelMember)} {f : RelField} (hl : lookupRel S k = some f) :
    relPairs S ((k, v) :: rest)
      = (f.mapped_fk_name, relFKVal v) :: relPairs S rest := by
  simp [relPairs, List.filterMap_cons, hl]

theorem mem_attrPairs {S : Schema} {l : List (String × Prim)} {x : String} {w : Prim}
    (h : (x, w) ∈ attrPairs S l) :
    ∃ k f, (k, w) ∈ l ∧ lookupAttr S k = some f ∧ f.mapped_attribute_name = x := by
  obtain ⟨⟨k, v⟩, hmem, heq⟩ := List.mem_filterMap.mp h
  cases hl : lookupAttr S k with
  | none => rw [hl] at heq; simp at heq
  | some f =>
    rw [hl] at heq
    simp only [Option.map_some', Option.some.injEq, Prod.mk.injEq] at heq
    exact ⟨k, f, heq.2 ▸ hmem, hl, heq.1⟩

theorem mem_relPairs {S : Schema} {l : List (String × RelMember)} {x : String} {w : Prim}
    (h : (x, w) ∈ relPairs S l) :
    ∃ k f v, (k, v) ∈ l ∧ lookupRel S k = some f ∧ f.mapped_fk_name = x ∧
      relFKVal v = w := by
  obtain ⟨⟨k, v⟩, hmem, heq⟩ := List.mem_filterMap.mp h
  cases hl : lookupRel S k with
  | none => rw [hl] at heq; simp at heq
  | some f =>
    rw [hl] at heq
    simp only [Option.map_some', Option.some.injEq, Prod.mk.injEq] at heq
    exact ⟨k, f, v, hmem, hl, heq.1, heq.2⟩

theorem attrPairs_mem_intro {S : Schema} {l : List (String × Prim)} {k : String}
    {v : Prim} {f : AttrField} (hmem : (k, v) ∈ l) (hl : lookupAttr S k = some f) :
    (f.mapped_attribute_name, v) ∈ attrPairs S l :=
  List.mem_filterMap.mpr ⟨(k, v), hmem, by simp [hl]⟩

theorem relPairs_mem_intro {S : Schema} {l : List (String × RelMember)} {k : String}
    {v : RelMember} {f : RelField} (hmem : (k, v) ∈ l) (hl : lookupRel S k = some f) :
    (f.mapped_fk_name, relFKVal v) ∈ relPairs S l :=
  List.mem_filterMap.mpr ⟨(k, v), hmem, by simp [hl]⟩

theorem attrPairs_keys_sub {S : Schema} {l : List (String × Prim)} {x : String}
    (h : x ∈ (attrPairs S l).map Prod.fst) :
    x ∈ S.attrs.map (fun p => p.2.mapped_attribute_name) := by
  obtain ⟨⟨x', w⟩, hmem, rfl⟩ := List.mem_map.mp h
  obtain ⟨k, f, _, hlk, hmx⟩ := mem_attrPairs hmem
  exact List.mem_map.mpr ⟨(k, f), lookupAttr_mem hlk, hmx⟩

theorem relPairs_keys_sub {S : Schema} {l : List (String × RelMember)} {x : String}
    (h : x ∈ (relPairs S l).map Prod.fst) :
    x ∈ S.rels.map (fun p => p.2.mapped_fk_name) := by
  obtain ⟨⟨x', w⟩, hmem, rfl⟩ := List.mem_map.mp h
  obtain ⟨k, f, v, _, hlk, hmx, _⟩ := mem_relPairs hmem
  exact List.mem_map.mpr ⟨(k, f), lookupRel_mem hlk, hmx⟩

theorem mappedA_inj {S : Schema} (hmap : (mappedNames S).Nodup) :
    ∀ {k1 : String} {f1 : AttrField} {k2 : String} {f2 : AttrField},
    lookupAttr S k1 = some f1 → lookupAttr S k2 = some f2 →
    f1.mapped_attribute_name = f2.mapped_attribute_name → k1 = k2 := by
  intro k1 f1 k2 f2 h1 h2 heq
  have hndA : (S.attrs.map (fun p => p.2.mapped_attribute_name)).Nodup :=
    (List.nodup_append.mp hmap).1
  have := List.inj_on_of_nodup_map hndA (lookupAttr_mem h1) (lookupAttr_mem h2) heq
  exact congrArg Prod.fst this

theorem mappedR_inj {S : Schema} (hmap : (mappedNames S).Nodup) :
    ∀ {k1 : String} {f1 : RelField} {k2 : String} {f2 : RelField},
    lookupRel S k1 = some f1 → lookupRel S k2 = some f2 →
    f1.mapped_fk_name = f2.mapped_fk_name → k1 = k2 := by
  intro k1 f1 k2 f2 h1 h2 heq
  have hndR : (S.rels.map (fun p => p.2.mapped_fk_name)).Nodup :=
    (List.nodup_append.mp hmap).2.1
  have := List.inj_on_of_nodup_map hndR (lookupRel_mem h1) (lookupRel_mem h2) heq
  exact congrArg Prod.fst this

theorem attrPairs_keys_nodup {S : Schema} (hmap : (mappedNames S).Nodup) :
    ∀ {l : List (String × Prim)}, (l.map Prod.fst).Nodup →
    ((attrPairs S l).map Prod.fst).Nodup := by
  intro l
  induction l with
  | nil => intro _; simp [attrPairs]
  | cons kv rest ih =>
    intro hnd
    obtain ⟨k, v⟩ := kv
    simp only [List.map_cons, List.nodup_cons] at hnd
    cases hl : lookupAttr S k with
    | none => rw [attrPairs_cons_none hl]; exact ih hnd.2
    | some f =>
      rw [attrPairs_cons_some hl]
      simp only [List.map_cons, List.nodup_cons]
      refine ⟨?_, ih hnd.2⟩
      intro hmm
      obtain ⟨⟨x', w⟩, hmem, hfst⟩ := List.mem_map.mp hmm
      obtain ⟨k', f', hk'mem, hlk', hmx⟩ := mem_attrPairs hmem
      have : k' = k := mappedA_inj hmap hlk' hl (hmx.trans (by simpa using hfst))
      subst this
      exact hnd.1 (List.mem_map.mpr ⟨(k', w), hk'mem, rfl⟩)

theorem relPairs_keys_nodup {S : Schema} (hmap : (mappedNames S).Nodup) :
    ∀ {l : List (String × RelMember)}, (l.map Prod.fst).Nodup →
    ((relPairs S l).map Prod.fst).Nodup := by
  intro l
  induction l with
  | nil => intro _; simp [relPairs]
  | cons kv rest ih =>
    intro hnd
    obtain ⟨k, v⟩ := kv
    simp only [List.map_cons, List.nodup_cons] at hnd
    cases hl : lookupRel S k with
    | none => rw [relPairs_cons_none hl]; exact ih hnd.2
    | some f =>
      rw [relPairs_cons_some hl]
      simp only [List.map_cons, List.nodup_cons]
      refine ⟨?_, ih hnd.2⟩
      intro hmm
      obtain ⟨⟨x', w⟩, hmem, hfst⟩ := List.mem_map.mp hmm
      obtain ⟨k', f', v', hk'mem, hlk', hmx, _⟩ := mem_relPairs hmem
      have : k' = k := mappedR_inj hmap hlk' hl (hmx.trans (by simpa using hfst))
      subst this
      exact hnd.1 (List.mem_map.mpr ⟨(k', v'), hk'mem, rfl⟩)

theorem procAttr_ok_elim {S : Schema} {m : Model} {k : String} {v : Prim} {m2 : Model}
    (h : procAttr S m k v = .ok m2) :
    ∃ f, lookupAttr S k = some f ∧ (v = Prim.null → f.nullable = true) ∧
      f.writableCreate = true ∧ m2 = mset m f.mapped_attribute_name v := by
  unfold procAttr at h
  cases hl : lookupAttr S k with
  | none => rw [hl] at h; simp at h
  | some f =>
    rw [hl] at h
    simp only [] at h
    by_cases h1 : v = Prim.null ∧ ¬ f.nullable = true
    · rw [if_pos h1] at h; simp at h
    · rw [if_neg h1] at h
      by_cases h2 : ¬ f.writableCreate = true
      · rw [if_pos h2] at h; simp at h
      · rw [if_neg h2] at h
        refine ⟨f, rfl, ?_, by simpa using h2, (Except.ok.inj h).symm⟩
        intro hv
        by_contra hnul
        exact h1 ⟨hv, by simpa using hnul⟩

theorem procAttr_ok_intro {S : Schema} {k : String} {v : Prim} (m : Model)
    (h : attrOkC S (k, v)) :
    ∃ f, lookupAttr S k = some f ∧
      procAttr S m k v = .ok (mset m f.mapped_attribute_name v) := by
  obtain ⟨f, hl, hnul, hw⟩ := h
  refine ⟨f, hl, ?_⟩
  unfold procAttr
  rw [hl]
  simp only []
  rw [if_neg ?_, if_neg ?_]
  · intro h2
    simp [hw] at h2
  · rintro ⟨hv, hn⟩
    exact hn (hnul hv)

theorem procAttrList_ok_elim {S : Schema} :
    ∀ {l : List (String × Prim)} {m m' : Model},
    procAttrList S m l = .ok m' →
    (∀ p ∈ l, attrOkC S p) ∧ m' = writeAttrs S m l := by
  intro l
  induction l with
  | nil =>
    intro m m' h
    simp only [procAttrList] at h
    exact ⟨by simp, (Except.ok.inj h).symm⟩
  | cons kv rest ih =>
    intro m m' h
    obtain ⟨k, v⟩ := kv
    rw [procAttrList_cons] at h
    cases hp : procAttr S m k v with
    | error e => rw [hp] at h; simp at h
    | ok m2 =>
      rw [hp] at h
      simp only [] at h
      obtain ⟨hconds, hval⟩ := ih h
      obtain ⟨f, hl, hnul, hw, hm2⟩ := procAttr_ok_elim hp
      refine ⟨?_, ?_⟩
      · intro p hp2
        rcases List.mem_cons.mp hp2 with h2 | h2
        · subst h2; exact ⟨f, hl, hnul, hw⟩
        · exact hconds p h2
      · rw [hval, hm2]
        have : writeAttrs S m ((k, v) :: rest)
            = writeAttrs S (mset m f.mapped_attribute_name v) rest := by
          simp [writeAttrs, hl]
        rw [this]

theorem procAttrList_ok_intro {S : Schema} :
    ∀ (l : List (String × Prim)) (m : Model), (∀ p ∈ l, attrOkC S p) →
    procAttrList S m l = .ok (writeAttrs S m l) := by
  intro l
  induction l with
  | nil => intro m _; simp [procAttrList, writeAttrs]
  | cons kv rest ih =>
    intro m hall
    obtain ⟨k, v⟩ := kv
    obtain ⟨f, hl, hp⟩ := procAttr_ok_intro m (hall (k, v) (List.mem_cons_self _ _))
    rw [procAttrList_cons, hp]
    simp only []
    have : writeAttrs S m ((k, v) :: rest)
        = writeAttrs S (mset m f.mapped_attribute_name v) rest := by
      simp [writeAttrs, hl]
    rw [this]
    exact ih _ (fun p hp2 => hall p (List.mem_cons_of_mem _ hp2))

theorem procRel_ok_elim {S : Schema} {m : Model} {k : String} {v : RelMember} {m2 : Model}
    (h : procRel S m k v = .ok m2) :
    ∃ f, lookupRel S k = some f ∧ f.writableCreate = true ∧
      (∃ links ident, v = RelMember.robj links (some (some ident)) ∧
        ident.rtype = f.relatedType ∧ ∃ nn, pyParseInt? ident.rid = some nn) ∧
      m2 = mset m f.mapped_fk_name (relFKVal v) := by
  unfold procRel at h
  cases hl : lookupRel S k with
  | none => rw [hl] at h; simp at h
  | some f =>
    rw [hl] at h
    simp only [] at h
    by_cases hw : ¬ f.writableCreate = true
    · rw [if_pos hw] at h; simp at h
    · rw [if_neg hw] at h
      cases v with
      | vnull =>
        by_cases hn : ¬ f.nullable = true
        · rw [if_pos hn] at h; simp at h
        · rw [if_neg hn] at h
          rw [show ToOne.deserializeField f .vnull = Except.error .typeError from rfl] at h
          simp at h
      | robj links dataOpt =>
        match dataOpt with
        | none => simp at h
        | some none => simp at h
        | some (some ident) =>
          simp only [] at h
          by_cases ht : ident.rtype ≠ f.relatedType
          · rw [if_pos ht] at h; simp at h
          · rw [if_neg ht] at h
            have htype : ident.rtype = f.relatedType := by simpa using ht
            have hdes : ToOne.deserializeField f (.robj links (some (some ident)))
                = match pyParseInt? ident.rid with
                  | none => Except.error PyErr.valueError
                  | some n => Except.ok (Prim.int n) := by
              unfold ToOne.deserializeField
              simp [htype]
            rw [hdes] at h
            cases hp : pyParseInt? ident.rid with
            | none => rw [hp] at h; simp at h
            | some nn =>
              rw [hp] at h
              simp only [] at h
              refine ⟨f, rfl, by simpa using hw, ⟨links, ident, rfl, htype, nn, hp⟩, ?_⟩
              rw [← Except.ok.inj h]
              have : relFKVal (RelMember.robj links (some (some ident))) = Prim.int nn := by
                simp [relFKVal, hp]
              rw [this]

theorem procRel_ok_intro {S : Schema} {k : String} {v : RelMember} (m : Model)
    (h : relOkC S (k, v)) :
    ∃ f, lookupRel S k = some f ∧
      procRel S m k v = .ok (mset m f.mapped_fk_name (relFKVal v)) := by
  obtain ⟨f, hl, hw, links, ident, hv, htype, nn, hp⟩ := h
  refine ⟨f, hl, ?_⟩
  subst hv
  unfold procRel
  rw [hl]
  simp only []
  rw [if_neg (by simp [hw])]
  rw [if_neg (by simp [htype])]
  have hdes : ToOne.deserializeField f (.robj links (some (some ident)))
      = Except.ok (Prim.int nn) := by
    unfold ToOne.deserializeField
    simp [htype, hp]
  rw [hdes]
  simp only []
  have : relFKVal (RelMember.robj links (some (some ident))) = Prim.int nn := by
    simp [relFKVal, hp]
  rw [this]

theorem procRelList_ok_elim {S : Schema} :
    ∀ {l : List (String × RelMember)} {m m' : Model},
    procRelList S m l = .ok m' →
    (∀ p ∈ l, relOkC S p) ∧ m' = writeRels S m l := by
  intro l
  induction l with
  | nil =>
    intro m m' h
    simp only [procRelList] at h
    exact ⟨by simp, (Except.ok.inj h).symm⟩
  | cons kv rest ih =>
    intro m m' h
    obtain ⟨k, v⟩ := kv
    rw [procRelList_cons] at h
    cases hp : procRel S m k v with
    | error e => rw [hp] at h; simp at h
    | ok m2 =>
      rw [hp] at h
      simp only [] at h
      obtain ⟨hconds, hval⟩ := ih h
      obtain ⟨f, hl, hw, hshape, hm2⟩ := procRel_ok_elim hp
      refine ⟨?_, ?_⟩
      · intro p hp2
        rcases List.mem_cons.mp hp2 with h2 | h2
        · subst h2
          obtain ⟨links, ident, hv, htype, nn, hpp⟩ := hshape
          exact ⟨f, hl, hw, links, ident, hv, htype, nn, hpp⟩
        · exact hconds p h2
      · rw [hval, hm2]
        have : writeRels S m ((k, v) :: rest)
            = writeRels S (mset m f.mapped_fk_name (relFKVal v)) rest := by
          simp [writeRels, hl]
        rw [this]

theorem procRelList_ok_intro {S : Schema} :
    ∀ (l : List (String × RelMember)) (m : Model), (∀ p ∈ l, relOkC S p) →
    procRelList S m l = .ok (writeRels S m l) := by
  intro l
  induction l with
  | nil => intro m _; simp [procRelList, writeRels]
  | cons kv rest ih =>
    intro m hall
    obtain ⟨k, v⟩ := kv
    obtain ⟨f, hl, hp⟩ := procRel_ok_intro m (hall (k, v) (List.mem_cons_self _ _))
    rw [procRelList_cons, hp]
    simp only []
    have : writeRels S m ((k, v) :: rest)
        = writeRels S (mset m f.mapped_fk_name (relFKVal v)) rest := by
      simp [writeRels, hl]
    rw [this]
    exact ih _ (fun p hp2 => hall p (List.mem_cons_of_mem _ hp2))

theorem deserialize_ok_elim {S : Schema} {D : Doc} {r : Model}
    (h : Resource.deserialize S D = .ok r) :
    D.type = S.japi_resource_type ∧
    (∀ p ∈ D.attributes.getD [], attrOkC S p) ∧
    (∀ p ∈ D.relationships.getD [], relOkC S p) ∧
    r = writeRels S (writeAttrs S [] (D.attributes.getD []))
        (D.relationships.getD []) := by
  unfold Resource.deserialize at h
  by_cases hty : D.type ≠ S.japi_resource_type
  · rw [if_pos hty] at h; simp at h
  · rw [if_neg hty] at h
    by_cases hex :
        ((D.attributes.getD []).filter (fun p => (lookupAttr S p.1).isNone)) ≠ []
    · rw [if_pos hex] at h; simp at h
    · rw [if_neg hex] at h
      by_cases hms : (S.attrs.filter
          (fun p => !((D.attributes.getD []).any (fun q => q.1 == p.1)))).any
          (fun p => !(p.2.has_default || p.2.nullable)) = true
      · rw [if_pos hms] at h; simp at h
      · rw [if_neg hms] at h
        cases hA : procAttrList S [] (D.attributes.getD []) with
        | error e => rw [hA] at h; simp at h
        | ok m1 =>
          rw [hA] at h
          simp only [] at h
          obtain ⟨hAc, hAv⟩ := procAttrList_ok_elim hA
          by_cases hexr :
              ((D.relationships.getD []).filter (fun p => (lookupRel S p.1).isNone)) ≠ []
          · rw [if_pos hexr] at h; simp at h
          · rw [if_neg hexr] at h
            by_cases hmsr : (S.rels.filter
                (fun p => !((D.relationships.getD []).any (fun q => q.1 == p.1)))).any
                (fun p => !(p.2.nullable || p.2.has_default)) = true
            · rw [if_pos hmsr] at h; simp at h
            · rw [if_neg hmsr] at h
              obtain ⟨hRc, hRv⟩ := procRelList_ok_elim h
              exact ⟨by simpa using hty, hAc, hRc, by rw [hRv, hAv]⟩

theorem deserialize_ok_intro {S : Schema} {D : Doc}
    (hty : D.type = S.japi_resource_type)
    (hex : ((D.attributes.getD []).filter (fun p => (lookupAttr S p.1).isNone)) = [])
    (hms : (S.attrs.filter
        (fun p => !((D.attributes.getD []).any (fun q => q.1 == p.1)))).any
        (fun p => !(p.2.has_default || p.2.nullable)) = false)
    (hexr : ((D.relationships.getD []).filter (fun p => (lookupRel S p.1).isNone)) = [])
    (hmsr : (S.rels.filter
        (fun p => !((D.relationships.getD []).any (fun q => q.1 == p.1)))).any
        (fun p => !(p.2.nullable || p.2.has_default)) = false)
    (hA : ∀ p ∈ D.attributes.getD [], attrOkC S p)
    (hR : ∀ p ∈ D.relationships.getD [], relOkC S p) :
    Resource.deserialize S D
      = .ok (writeRels S (writeAttrs S [] (D.attributes.getD []))
          (D.relationships.getD [])) := by
  unfold Resource.deserialize
  rw [if_neg (by simp [hty]), if_neg (by simp [hex]),
    if_neg (by intro hcon; rw [hms] at hcon; exact Bool.false_ne_true hcon),
    procAttrList_ok_intro _ _ hA]
  simp only []
  rw [if_neg (by simp [hexr]),
    if_neg (by intro hcon; rw [hmsr] at hcon; exact Bool.false_ne_true hcon)]
  exact procRelList_ok_intro _ _ hR

theorem opt_emptylist_getD {α : Type} (l : List α) :
    (if l.isEmpty then none else some l).getD [] = l := by
  cases l <;> rfl

theorem serialize_type (S : Schema) (m : Model) (lp : String) :
    (Resource.serialize S m lp).type = S.japi_resource_type := rfl

theorem serialize_attributes (S : Schema) (m : Model) (lp : String) :
    (Resource.serialize S m lp).attributes.getD []
      = S.attrs.map (fun p => (p.1, mget m p.2.mapped_attribute_name)) :=
  opt_emptylist_getD _

theorem serialize_relationships (S : Schema) (m : Model) (lp : String) :
    (Resource.serialize S m lp).relationships.getD []
      = S.rels.map (fun p =>
          (p.1, ToOne.serializeField S p.1 p.2 m (pyStrPrim (mget m S.idKey)) lp)) :=
  opt_emptylist_getD _

theorem mapped_doc_keysA {S : Schema} (g : String × AttrField → Prim) :
    (S.attrs.map (fun p => (p.1, g p))).map Prod.fst = S.attrs.map Prod.fst := by
  rw [List.map_map]
  rfl

theorem mapped_doc_keysR {S : Schema} (g : String × RelField → RelMember) :
    (S.rels.map (fun p => (p.1, g p))).map Prod.fst = S.rels.map Prod.fst := by
  rw [List.map_map]
  rfl

theorem mapped_doc_no_extraA {S : Schema} (hSA : (S.attrs.map Prod.fst).Nodup)
    (g : String × AttrField → Prim) :
    (S.attrs.map (fun p => (p.1, g p))).filter
      (fun p => (lookupAttr S p.1).isNone) = [] := by
  rw [List.filter_eq_nil_iff]
  intro a ha
  obtain ⟨p, hp, rfl⟩ := List.mem_map.mp ha
  simp [lookupAttr_of_mem hSA hp]

theorem mapped_doc_no_extraR {S : Schema} (hSR : (S.rels.map Prod.fst).Nodup)
    (g : String × RelField → RelMember) :
    (S.rels.map (fun p => (p.1, g p))).filter
      (fun p => (lookupRel S p.1).isNone) = [] := by
  rw [List.filter_eq_nil_iff]
  intro a ha
  obtain ⟨p, hp, rfl⟩ := List.mem_map.mp ha
  simp [lookupRel_of_mem hSR hp]

theorem mapped_doc_no_missingA {S : Schema} (g : String × AttrField → Prim) :
    (S.attrs.filter
      (fun p => !((S.attrs.map (fun p => (p.1, g p))).any (fun q => q.1 == p.1)))).any
      (fun p => !(p.2.has_default || p.2.nullable)) = false := by
  have hfil : (S.attrs.filter
      (fun p => !((S.attrs.map (fun p => (p.1, g p))).any (fun q => q.1 == p.1)))) = [] := by
    rw [List.filter_eq_nil_iff]
    intro a ha
    have : (S.attrs.map (fun p => (p.1, g p))).any (fun q => q.1 == a.1) = true :=
      List.any_eq_true.mpr ⟨(a.1, g a), List.mem_map.mpr ⟨a, ha, rfl⟩, by simp⟩
    simp [this]
  rw [hfil]
  rfl

theorem mapped_doc_no_missingR {S : Schema} (g : String × RelField → RelMember) :
    (S.rels.filter
      (fun p => !((S.rels.map (fun p => (p.1, g p))).any (fun q => q.1 == p.1)))).any
      (fun p => !(p.2.nullable || p.2.has_default)) = false := by
  have hfil : (S.rels.filter
      (fun p => !((S.rels.map (fun p => (p.1, g p))).any (fun q => q.1 == p.1)))) = [] := by
    rw [List.filter_eq_nil_iff]
    intro a ha
    have : (S.rels.map (fun p => (p.1, g p))).any (fun q => q.1 == a.1) = true :=
      List.any_eq_true.mpr ⟨(a.1, g a), List.mem_map.mpr ⟨a, ha, rfl⟩, by simp⟩
    simp [this]
  rw [hfil]
  rfl

theorem mget_roundtrip_attr {S : Schema} (hmap : (mappedNames S).Nodup)
    (hSA : (S.attrs.map Prod.fst).Nodup)
    {inA : List (String × Prim)} (inR : List (String × RelMember))
    (hDA : (inA.map Prod.fst).Nodup)
    {k : String} {f : AttrField} {v : Prim}
    (hkf : (k, f) ∈ S.attrs) (hkv : (k, v) ∈ inA) :
    mget (writeRels S (writeAttrs S [] inA) inR) f.mapped_attribute_name = v := by
  rw [writeRels_eq_append, writeAttrs_eq_append]
  have hnotin : f.mapped_attribute_name ∉ (relPairs S inR).reverse.map Prod.fst := by
    intro hmem
    rw [List.map_reverse, List.mem_reverse] at hmem
    have h1 := relPairs_keys_sub hmem
    have h2 : f.mapped_attribute_name
        ∈ S.attrs.map (fun p => p.2.mapped_attribute_name) :=
      List.mem_map.mpr ⟨(k, f), hkf, rfl⟩
    exact (List.nodup_append.mp hmap).2.2 h2 h1
  rw [mget_append_of_not_mem hnotin]
  have hmem2 : (f.mapped_attribute_name, v) ∈ (attrPairs S inA).reverse :=
    List.mem_reverse.mpr (attrPairs_mem_intro hkv (lookupAttr_of_mem hSA hkf))
  have hnd2 : ((attrPairs S inA).reverse.map Prod.fst).Nodup := by
    rw [List.map_reverse]
    exact List.nodup_reverse.mpr (attrPairs_keys_nodup hmap hDA)
  exact mget_append_of_mem hnd2 hmem2 []

theorem mget_roundtrip_rel {S : Schema} (hmap : (mappedNames S).Nodup)
    (hSR : (S.rels.map Prod.fst).Nodup)
    (inA : List (String × Prim)) {inR : List (String × RelMember)}
    (hDR : (inR.map Prod.fst).Nodup)
    {k : String} {f : RelField} {rm : RelMember}
    (hkf : (k, f) ∈ S.rels) (hkrm : (k, rm) ∈ inR) :
    mget (writeRels S (writeAttrs S [] inA) inR) f.mapped_fk_name = relFKVal rm := by
  rw [writeRels_eq_append]
  have hmem2 : (f.mapped_fk_name, relFKVal rm) ∈ (relPairs S inR).reverse :=
    List.mem_reverse.mpr (relPairs_mem_intro hkrm (lookupRel_of_mem hSR hkf))
  have hnd2 : ((relPairs S inR).reverse.map Prod.fst).Nodup := by
    rw [List.map_reverse]
    exact List.nodup_reverse.mpr (relPairs_keys_nodup hmap hDR)
  exact mget_append_of_mem hnd2 hmem2 _

/-- C1 (amended): the round trip deserialize–serialize–deserialize preserves
every attribute value and every to-one foreign-key value present in the
valid create document `D`, for well-formed schemas (distinct wire names and
distinct mapped column names) and documents that supply **every** schema
attribute and relationship; the counterexample shows the claim fails without
that presence requirement (serialize emits `null` for columns the document
never set, which re-deserialization rejects or crashes on — see also C3). -/
theorem C1_roundtrip_amended (S : Schema) (D : Doc) (lp : String) (r : Model)
    (hSA : (S.attrs.map Prod.fst).Nodup)
    (hSR : (S.rels.map Prod.fst).Nodup)
    (hmap : (mappedNames S).Nodup)
    (hDA : ((D.attributes.getD []).map Prod.fst).Nodup)
    (hDR : ((D.relationships.getD []).map Prod.fst).Nodup)
    (hallA : ∀ p ∈ S.attrs, ∃ v, (p.1, v) ∈ D.attributes.getD [])
    (hallR : ∀ p ∈ S.rels, ∃ v, (p.1, v) ∈ D.relationships.getD [])
    (hdes : Resource.deserialize S D = .ok r) :
    ∃ r2, Resource.deserialize S (Resource.serialize S r lp) = .ok r2 ∧
      (∀ k v, (k, v) ∈ D.attributes.getD [] → ∀ f, lookupAttr S k = some f →
        mget r f.mapped_attribute_name = v ∧ mget r2 f.mapped_attribute_name = v) ∧
      (∀ p ∈ S.rels, mget r2 p.2.mapped_fk_name = mget r p.2.mapped_fk_name) := by
  obtain ⟨hty, hA, hR, hr⟩ := deserialize_ok_elim hdes
  -- reading back what the first deserialize wrote
  have hvalA : ∀ {k : String} {f : AttrField} {v : Prim},
      (k, f) ∈ S.attrs → (k, v) ∈ D.attributes.getD [] →
      mget r f.mapped_attribute_name = v := by
    intro k f v hkf hkv
    rw [hr]
    exact mget_roundtrip_attr hmap hSA _ hDA hkf hkv
  have hvalR : ∀ {k : String} {f : RelField} {rm : RelMember},
      (k, f) ∈ S.rels → (k, rm) ∈ D.relationships.getD [] →
      mget r f.mapped_fk_name = relFKVal rm := by
    intro k f rm hkf hkrm
    rw [hr]
    exact mget_roundtrip_rel hmap hSR _ hDR hkf hkrm
  -- each schema relationship's foreign key in `r` is a parsed integer
  have hfkint : ∀ p ∈ S.rels, ∃ nn : Int, mget r p.2.mapped_fk_name = Prim.int nn := by
    intro p hp
    obtain ⟨rm, hrm⟩ := hallR p hp
    obtain ⟨f', hl', hw', links, ident, hshape, htype, nn, hparse⟩ := hR (p.1, rm) hrm
    have hfe : f' = p.2 := by
      have h2 := lookupRel_of_mem hSR hp
      rw [hl'] at h2
      exact Option.some.inj h2
    subst hfe
    refine ⟨nn, ?_⟩
    have hshape2 : rm = RelMember.robj links (some (some ident)) := hshape
    rw [hvalR hp hrm, hshape2]
    simp [relFKVal, hparse]
  -- the serialized document
  have hkeysA2 : ((Resource.serialize S r lp).attributes.getD []).map Prod.fst
      = S.attrs.map Prod.fst := by
    rw [serialize_attributes]
    exact mapped_doc_keysA _
  have hkeysR2 : ((Resource.serialize S r lp).relationships.getD []).map Prod.fst
      = S.rels.map Prod.fst := by
    rw [serialize_relationships]
    exact mapped_doc_keysR _
  -- the serialized relationship members carry the (non-null) foreign keys
  have hser : ∀ p ∈ S.rels, ∀ nn : Int, mget r p.2.mapped_fk_name = Prim.int nn →
      ToOne.serializeField S p.1 p.2 r (pyStrPrim (mget r S.idKey)) lp
        = RelMember.robj
            (some (link_for_relationship lp S.urlComponent
                     (pyStrPrim (mget r S.idKey)) p.1,
                   link_for_related lp S.urlComponent
                     (pyStrPrim (mget r S.idKey)) p.1))
            (some (some ⟨p.2.relatedType, pyIntRepr nn⟩)) := by
    intro p _ nn hfk
    unfold ToOne.serializeField
    rw [hfk]
    rw [if_neg (by simp)]
    rfl
  -- validity of the serialized document's entries
  have hA2 : ∀ q ∈ (Resource.serialize S r lp).attributes.getD [], attrOkC S q := by
    rw [serialize_attributes]
    intro q hq
    obtain ⟨p, hp, rfl⟩ := List.mem_map.mp hq
    obtain ⟨v, hv⟩ := hallA p hp
    obtain ⟨f', hl', hn', hw'⟩ := hA (p.1, v) hv
    have hfe : f' = p.2 := by
      have h2 := lookupAttr_of_mem hSA hp
      rw [hl'] at h2
      exact Option.some.inj h2
    subst hfe
    refine ⟨p.2, lookupAttr_of_mem hSA hp, ?_, hw'⟩
    intro hnull
    apply hn'
    rw [← hvalA hp hv]
    exact hnull
  have hR2 : ∀ q ∈ (Resource.serialize S r lp).relationships.getD [], relOkC S q := by
    rw [serialize_relationships]
    intro q hq
    obtain ⟨p, hp, rfl⟩ := List.mem_map.mp hq
    obtain ⟨rm, hrm⟩ := hallR p hp
    obtain ⟨f', hl', hw', _, _, _, _, _, _⟩ := hR (p.1, rm) hrm
    have hfe : f' = p.2 := by
      have h2 := lookupRel_of_mem hSR hp
      rw [hl'] at h2
      exact Option.some.inj h2
    subst hfe
    obtain ⟨nn, hfk⟩ := hfkint p hp
    refine ⟨p.2, lookupRel_of_mem hSR hp, hw', _, ⟨p.2.relatedType, pyIntRepr nn⟩,
      hser p hp nn hfk, rfl, nn, pyParseInt_pyIntRepr nn⟩
  -- the second deserialize succeeds
  have hsecond := deserialize_ok_intro (D := Resource.serialize S r lp)
    (serialize_type S r lp)
    (by rw [serialize_attributes]; exact mapped_doc_no_extraA hSA _)
    (by rw [serialize_attributes]; exact mapped_doc_no_missingA _)
    (by rw [serialize_relationships]; exact mapped_doc_no_extraR hSR _)
    (by rw [serialize_relationships]; exact mapped_doc_no_missingR _)
    hA2 hR2
  refine ⟨_, hsecond, ?_, ?_⟩
  · -- attribute preservation
    intro k v hkv f hlf
    have hkf : (k, f) ∈ S.attrs := lookupAttr_mem hlf
    refine ⟨hvalA hkf hkv, ?_⟩
    have hDA2 : (((Resource.serialize S r lp).attributes.getD []).map Prod.fst).Nodup := by
      rw [hkeysA2]; exact hSA
    have hmem2 : (k, v) ∈ (Resource.serialize S r lp).attributes.getD [] := by
      rw [serialize_attributes]
      exact List.mem_map.mpr ⟨(k, f), hkf, by rw [show mget r f.mapped_attribute_name = v
        from hvalA hkf hkv]⟩
    exact mget_roundtrip_attr hmap hSA _ hDA2 hkf hmem2
  · -- foreign-key preservation
    intro p hp
    obtain ⟨nn, hfk⟩ := hfkint p hp
    have hDR2 : (((Resource.serialize S r lp).relationships.getD []).map Prod.fst).Nodup := by
      rw [hkeysR2]; exact hSR
    have hmem2 : (p.1, ToOne.serializeField S p.1 p.2 r (pyStrPrim (mget r S.idKey)) lp)
        ∈ (Resource.serialize S r lp).relationships.getD [] := by
      rw [serialize_relationships]
      exact List.mem_map.mpr ⟨p, hp, rfl⟩
    have := mget_roundtrip_rel hmap hSR
      ((Resource.serialize S r lp).attributes.getD []) hDR2 hp hmem2
    rw [this, hser p hp nn hfk, hfk]
    simp [relFKVal, pyParseInt_pyIntRepr nn]

/-- C1 counterexample: the claim as stated fails.  `emptyThingDoc` is a
valid create document for `defaultAttrSchema` (its only attribute has a
default, so it may be omitted and the first deserialize succeeds), but
serializing the resulting record emits `count: null` (the column was never
set), and the second deserialize rejects that with a 422 — the round trip
does not yield a record at all. -/
theorem C1_counterexample_roundtrip :
    Resource.deserialize defaultAttrSchema emptyThingDoc = .ok [] ∧
    Resource.deserialize defaultAttrSchema
        (Resource.serialize defaultAttrSchema [] "pre")
      = .error (.api (unprocessableE "Non-nullable attribute set to None")) := ⟨rfl, rfl⟩

/-- C1 witness: the amended round trip at a concrete schema and document
(one attribute, one to-one relationship, both supplied). -/
theorem C1_witness :
    Resource.deserialize articleSchema articleDoc
      = .ok [("author_id", Prim.int 9), ("title", Prim.str "t")] ∧
    ∃ r2, Resource.deserialize articleSchema
        (Resource.serialize articleSchema
          [("author_id", Prim.int 9), ("title", Prim.str "t")] "pre") = .ok r2 ∧
      (∀ k v, (k, v) ∈ articleDoc.attributes.getD [] →
        ∀ f, lookupAttr articleSchema k = some f →
          mget [("author_id", Prim.int 9), ("title", Prim.str "t")]
              f.mapped_attribute_name = v ∧
          mget r2 f.mapped_attribute_name = v) ∧
      (∀ p ∈ articleSchema.rels,
        mget r2 p.2.mapped_fk_name
          = mget [("author_id", Prim.int 9), ("title", Prim.str "t")]
              p.2.mapped_fk_name) :=
  ⟨rfl, C1_roundtrip_amended articleSchema articleDoc "pre"
    [("author_id", Prim.int 9), ("title", Prim.str "t")]
    (by decide) (by decide) (by decide) (by decide) (by decide)
    (by
      intro p hp
      have : p = ("title",
          { mapped_attribute_name := "title", nullable := false, has_default := false,
            writableCreate := true, writableUpdate := true }) := by
        simpa [articleSchema] using hp
      subst this
      exact ⟨Prim.str "t", by decide⟩)
    (by
      intro p hp
      have : p = ("author",
          { mapped_fk_name := "author_id", relatedType := "person", nullable := false,
            has_default := false, writableCreate := true, writableUpdate := true }) := by
        simpa [articleSchema] using hp
      subst this
      exact ⟨RelMember.robj none (some (some ⟨"person", "9"⟩)), by decide⟩)
    rfl⟩

end JsonapiFlex
